import Mathlib

set_option autoImplicit false

/-!
Shallow embedding of `restaround/restaround.py` (the module installed by
`setup.py`; the top-level `restaround.py` is an older iteration of the same
program).  The platform is fixed to Linux, so the Windows-only branches
(`script_path`, `.bat` suffix stripping, quote stripping) are the identity and
are omitted.

Representation choices:
* a file name inside a profile directory is represented by its underscore-split
  parts, i.e. by the list `path.parts[-1].split('_')`; this is faithful because
  splitting on `'_'` is a bijection between names and non-empty lists of
  `'_'`-free strings, and the program never uses the base name other than
  through this split;
* a file's content is represented by its list of lines (without trailing
  newlines); an empty file (`st_size == 0`) is exactly the file with no lines,
  so the `path.stat().st_size` test becomes `content ≠ []`;
* `sys.exit(n)`, `KeyError` and `IndexError` are modelled by an `Except` monad;
  the unbounded recursion of `Profile.inherit` through the `inherit` flag is
  modelled with a fuel parameter (`Err.fuelOut` plays the role of the missing
  cycle detection).
-/

namespace Restaround

/-- Abnormal terminations of the Python program: `sys.exit(code)`, an uncaught
`KeyError` (unknown flag name), an uncaught `IndexError` (list subscript out of
range), and exhaustion of the recursion fuel standing in for the unbounded
`Profile.inherit` recursion. -/
inductive Err where
  | exit (code : Nat)
  | keyError
  | indexError
  | fuelOut
deriving DecidableEq, Repr

/-- One flag class of the Python source.  `name` is `restic_name()` (the class
name, lowercased, `_` replaced by `-`); the Booleans record which base classes
the Python class derives from, which is what every `isinstance`/class-identity
dispatch in the source tests. -/
structure FlagClass where
  name : String
  multi : Bool
  resolveContent : Bool
  isBinary : Bool := false
  isFile : Bool := false
  isPositional : Bool := false
  isScript : Bool := false
  isInherit : Bool := false
deriving DecidableEq, Repr

/-- `class X(Flag)` with default attributes. -/
def plainFlag (n : String) : FlagClass :=
  { name := n, multi := false, resolveContent := true }

/-- `class X(BinaryFlag)`. -/
def binFlag (n : String) : FlagClass :=
  { name := n, multi := false, resolveContent := true, isBinary := true }

/-- `class X(ListFlag)`. -/
def listFlag (n : String) : FlagClass :=
  { name := n, multi := true, resolveContent := true }

/-- `class X(FileFlag)` with default attributes. -/
def fileFlag (n : String) : FlagClass :=
  { name := n, multi := false, resolveContent := false, isFile := true }

/-- `class X(PositionalFlag)`. -/
def posFlag (n : String) : FlagClass :=
  { name := n, multi := true, resolveContent := true, isPositional := true }

/-- `class X(SinglePositionalFlag)`. -/
def singlePosFlag (n : String) : FlagClass :=
  { name := n, multi := false, resolveContent := true, isPositional := true }

/-- `class X(ScriptFlag)` (a `FileFlag` with `multi = True` and empty
`args()`). -/
def scriptFlag (n : String) : FlagClass :=
  { name := n, multi := true, resolveContent := false, isFile := true,
    isScript := true }

/-- `class Inherit(ListFlag)` with its two method overrides (recursion in
`apply_to`, fatal error in `remove_from`). -/
def inheritFlag : FlagClass :=
  { name := "inherit", multi := true, resolveContent := true,
    isInherit := true }

/-- `Main.flags`: every concrete `Flag` subclass whose Python class name does
not end in `Flag`, in source order (plain flags, binary flags, list flags,
file flags, script flags, positional flags, then `Inherit`, `Cacert`,
`Cache_Dir`). -/
def mainFlags : List FlagClass :=
  [ plainFlag "archive", plainFlag "exclude-larger-than", plainFlag "group-by",
    plainFlag "key-hint", plainFlag "keep-daily", plainFlag "keep-hourly",
    plainFlag "keep-last", plainFlag "keep-monthly", plainFlag "keep-yearly",
    plainFlag "keep-weekly", plainFlag "keep-within",
    plainFlag "keep-within-daily", plainFlag "keep-within-hourly",
    plainFlag "keep-within-last", plainFlag "keep-within-monthly",
    plainFlag "keep-within-weekly", plainFlag "keep-within-within",
    plainFlag "keep-within-yearly", plainFlag "key-hint2",
    plainFlag "limit-download", plainFlag "limit-upload", plainFlag "max-age",
    plainFlag "max-unused", plainFlag "max-repack-size", plainFlag "mode",
    plainFlag "newest", plainFlag "oldest", plainFlag "parent",
    { plainFlag "path" with multi := true },
    plainFlag "read-data-subset", plainFlag "remove", plainFlag "set",
    plainFlag "snapshot", plainFlag "snapshot-template",
    plainFlag "stdin-filename", plainFlag "target", plainFlag "time",
    plainFlag "user", plainFlag "verbose",
    binFlag "allow-other", binFlag "blob", binFlag "check-unused",
    binFlag "cleanup", binFlag "cleanup-cache", binFlag "copy-chunker-params",
    binFlag "compact", binFlag "dry-run", binFlag "exclude-caches",
    binFlag "force", binFlag "ignore-case", binFlag "ignore-ctime",
    binFlag "ignore-inode", binFlag "json", binFlag "latest", binFlag "long",
    binFlag "metadata", binFlag "no-cache", binFlag "no-default-permissions",
    binFlag "no-lock", binFlag "no-size", binFlag "one-file-system",
    binFlag "owner-root", binFlag "pack", binFlag "prune", binFlag "quiet",
    binFlag "recursive", binFlag "read-all-packs", binFlag "read-data",
    binFlag "remove-all", binFlag "repack-cacheable-only",
    binFlag "show-pack-id", binFlag "stdin", binFlag "tree", binFlag "verify",
    binFlag "with-atime", binFlag "with-cache",
    listFlag "add", listFlag "exclude-if-present", listFlag "exclude",
    { listFlag "files-from" with resolveContent := false },
    { listFlag "files-from-raw" with resolveContent := false },
    { listFlag "files-from-verbatim" with resolveContent := false },
    listFlag "host", listFlag "iexclude", listFlag "iinclude",
    listFlag "include", listFlag "keep-tag", listFlag "tag",
    { fileFlag "exclude-file" with multi := true },
    { fileFlag "iexclude-file" with multi := true },
    fileFlag "password-command", fileFlag "password-command2",
    fileFlag "password-file", fileFlag "password-file2",
    fileFlag "new-password-file",
    { fileFlag "repo" with resolveContent := true },
    { fileFlag "repo2" with resolveContent := true },
    fileFlag "repository-file", fileFlag "repository-file2",
    fileFlag "tls-client-cert",
    scriptFlag "post", scriptFlag "pre",
    posFlag "filedir", posFlag "dir", singlePosFlag "keycommand",
    singlePosFlag "keyid", posFlag "mountpoint", posFlag "objects",
    posFlag "pattern", posFlag "snapshotid", singlePosFlag "singlesnapshotid",
    inheritFlag,
    { fileFlag "cacert" with resolveContent := true },
    { fileFlag "cache-dir" with resolveContent := true } ]

/-- Named accessors for the flag classes used in the theorems below. -/
def verboseClass : FlagClass := plainFlag "verbose"
def tagClass : FlagClass := listFlag "tag"
def hostClass : FlagClass := listFlag "host"
def repoClass : FlagClass := { fileFlag "repo" with resolveContent := true }
def excludeCachesClass : FlagClass := binFlag "exclude-caches"
def fileDirClass : FlagClass := posFlag "filedir"

/-- `Main.flags` lookup (`Main.flags[name]`); `none` models the `KeyError`. -/
def findFlagClass (n : String) : Option FlagClass :=
  mainFlags.find? (fun c => c.name == n)

/-- The names of all known flags (`x in Main.flags`). -/
def flagNames : List String := mainFlags.map (·.name)

/-- One command class: `restic_name()`, `use_general_flags`, and
`specific_flags` in declaration order. -/
structure Cmd where
  name : String
  useGeneralFlags : Bool := true
  specificFlags : List FlagClass := []
deriving DecidableEq, Repr

/-- `Command.general_flags`, in declaration order. -/
def generalFlags : List FlagClass :=
  [ { fileFlag "cacert" with resolveContent := true },
    { fileFlag "cache-dir" with resolveContent := true },
    binFlag "cleanup-cache",
    inheritFlag, binFlag "json", plainFlag "key-hint",
    plainFlag "limit-download", plainFlag "limit-upload",
    binFlag "no-cache", binFlag "no-lock",
    fileFlag "password-command", fileFlag "password-file",
    scriptFlag "pre", scriptFlag "post",
    fileFlag "repository-file",
    binFlag "quiet", { fileFlag "repo" with resolveContent := true },
    fileFlag "tls-client-cert", plainFlag "verbose" ]

/-- `Command.accepts_flags()`. -/
def Cmd.acceptsFlags (c : Cmd) : List FlagClass :=
  if c.useGeneralFlags then generalFlags ++ c.specificFlags
  else c.specificFlags

/-- `Main.commands`: every concrete `Command` subclass, keyed by
`restic_name()` (the class name lowercased, `_` replaced by `-`, with the
`cmd` prefix dropped). -/
def commandList : List Cmd :=
  [ { name := "backup", specificFlags :=
      [ listFlag "exclude", { fileFlag "exclude-file" with multi := true },
        binFlag "exclude-caches", listFlag "exclude-if-present",
        { listFlag "files-from" with resolveContent := false },
        plainFlag "exclude-larger-than",
        { fileFlag "iexclude-file" with multi := true },
        { listFlag "files-from-raw" with resolveContent := false },
        { listFlag "files-from-verbatim" with resolveContent := false },
        binFlag "ignore-ctime", binFlag "force", listFlag "host",
        listFlag "iexclude", binFlag "ignore-inode",
        binFlag "one-file-system", plainFlag "parent", binFlag "stdin",
        plainFlag "stdin-filename", listFlag "tag", plainFlag "time",
        binFlag "with-atime", posFlag "filedir" ] },
    { name := "cpal", useGeneralFlags := false, specificFlags :=
      [ { fileFlag "repo" with resolveContent := true } ] },
    { name := "rmcpal", useGeneralFlags := false, specificFlags :=
      [ { fileFlag "repo" with resolveContent := true } ] },
    { name := "cat", specificFlags := [ posFlag "objects" ] },
    { name := "check", specificFlags :=
      [ binFlag "check-unused", binFlag "read-data",
        plainFlag "read-data-subset", binFlag "with-cache" ] },
    { name := "diff", specificFlags :=
      [ binFlag "metadata", posFlag "snapshotid" ] },
    { name := "dump", specificFlags :=
      [ plainFlag "archive", listFlag "host",
        { plainFlag "path" with multi := true }, listFlag "tag" ] },
    { name := "find", specificFlags :=
      [ binFlag "blob", binFlag "ignore-case", binFlag "long",
        plainFlag "newest", plainFlag "oldest", listFlag "host",
        binFlag "pack", { plainFlag "path" with multi := true },
        binFlag "show-pack-id", plainFlag "snapshot", listFlag "tag",
        binFlag "tree", posFlag "pattern" ] },
    { name := "forget", specificFlags :=
      [ plainFlag "keep-last", plainFlag "keep-hourly", plainFlag "keep-daily",
        plainFlag "keep-weekly", plainFlag "keep-monthly",
        plainFlag "keep-yearly", plainFlag "keep-within",
        plainFlag "keep-within-hourly", plainFlag "keep-within-daily",
        plainFlag "keep-within-weekly", plainFlag "keep-within-monthly",
        plainFlag "keep-within-yearly", listFlag "keep-tag", listFlag "host",
        listFlag "tag", { plainFlag "path" with multi := true },
        binFlag "compact", plainFlag "group-by", binFlag "dry-run",
        binFlag "prune", plainFlag "max-unused", plainFlag "max-repack-size",
        binFlag "repack-cacheable-only", posFlag "snapshotid" ] },
    { name := "init", specificFlags :=
      [ binFlag "copy-chunker-params", plainFlag "key-hint2",
        fileFlag "password-command2", fileFlag "password-file2",
        { fileFlag "repo2" with resolveContent := true },
        fileFlag "repository-file2" ] },
    { name := "help", useGeneralFlags := false },
    { name := "list", specificFlags := [ posFlag "objects" ] },
    { name := "ls", specificFlags :=
      [ listFlag "host", binFlag "long",
        { plainFlag "path" with multi := true }, binFlag "recursive",
        listFlag "tag", singlePosFlag "singlesnapshotid", posFlag "dir" ] },
    { name := "mount", specificFlags :=
      [ binFlag "allow-other", listFlag "host",
        binFlag "no-default-permissions", binFlag "owner-root",
        { plainFlag "path" with multi := true },
        plainFlag "snapshot-template", listFlag "tag",
        posFlag "mountpoint" ] },
    { name := "prune", specificFlags :=
      [ binFlag "dry-run", plainFlag "max-repack-size",
        plainFlag "max-unused", binFlag "repack-cacheable-only" ] },
    { name := "rebuild-index", specificFlags := [ binFlag "read-all-packs" ] },
    { name := "recover" },
    { name := "restore", specificFlags :=
      [ listFlag "exclude", listFlag "host", listFlag "iexclude",
        listFlag "iinclude", listFlag "include",
        { plainFlag "path" with multi := true }, listFlag "tag",
        plainFlag "target", binFlag "verify", posFlag "snapshotid" ] },
    { name := "snapshots", specificFlags :=
      [ binFlag "compact", plainFlag "group-by", listFlag "host",
        binFlag "latest", { plainFlag "path" with multi := true },
        listFlag "tag", posFlag "snapshotid" ] },
    { name := "stats", specificFlags :=
      [ listFlag "host", plainFlag "mode",
        { plainFlag "path" with multi := true }, listFlag "tag",
        posFlag "snapshotid" ] },
    { name := "tag", specificFlags :=
      [ listFlag "add", listFlag "host",
        { plainFlag "path" with multi := true }, plainFlag "remove",
        plainFlag "set", listFlag "tag", posFlag "snapshotid" ] },
    { name := "unlock", specificFlags := [ binFlag "remove-all" ] },
    { name := "migrate", specificFlags := [ binFlag "force" ] },
    { name := "copy", specificFlags :=
      [ listFlag "host", plainFlag "key-hint2", fileFlag "password-command2",
        fileFlag "password-file2", { plainFlag "path" with multi := true },
        { fileFlag "repo2" with resolveContent := true },
        fileFlag "repository-file2", listFlag "tag" ] },
    { name := "key", specificFlags :=
      [ listFlag "host", fileFlag "new-password-file", plainFlag "user",
        singlePosFlag "keycommand", singlePosFlag "keyid" ] },
    { name := "selftest", useGeneralFlags := false } ]

/-- The names of all known commands (`Main.commands` keys). -/
def commandNames : List String := commandList.map (·.name)

/-- `Main.commands[n]` as an `Option`. -/
def findCommand (n : String) : Option Cmd :=
  commandList.find? (fun c => c.name == n)

/-- `Main.commands[Main.command].accepts_flags()`; only ever evaluated at a
name present in `Main.commands`, so an absent key is given the empty list. -/
def commandAccepts (n : String) : List FlagClass :=
  (findCommand n).elim [] Cmd.acceptsFlags

/-! ## Profile entry parsing (`ProfileEntry.__init__`) -/

/-- One item of a profile directory: its underscore-split base name and its
lines. -/
structure FileItem where
  parts : List String
  content : List String
deriving DecidableEq, Repr

/-- The result of `ProfileEntry.__init__`: source path, optional command
scope, removal marker, flag name, inline values, and the (lazily read) file
content carried along for `Flag.add_values`. -/
structure ProfileEntry where
  path : String
  command : Option String
  remove : Bool
  flagName : String
  values : List String
  content : List String
deriving DecidableEq, Repr

/-- The per-command condition of the scope-stripping loop:
`len(fparts) > 1 and cmd.restic_name() == fparts[0] and
((fparts[1] in Main.flags) or (fparts[1] == 'no' and fparts[2] in
Main.flags))`.  Evaluating `fparts[2]` on a two-element list raises
`IndexError`. -/
def scopeMatch (cname : String) (fparts : List String) : Except Err Bool :=
  match fparts with
  | p0 :: p1 :: rest =>
    if cname = p0 then
      if flagNames.contains p1 then Except.ok true
      else if p1 = "no" then
        match rest with
        | [] => Except.error Err.indexError
        | p2 :: _ => Except.ok (flagNames.contains p2)
    else Except.ok false
    else Except.ok false
  | _ => Except.ok false

/-- The `for cmd in Main.commands.values()` loop with its `break`. -/
def findScope : List Cmd → List String → Except Err (Option String)
  | [], _ => Except.ok none
  | c :: rest, fparts =>
    match scopeMatch c.name fparts with
    | Except.error e => Except.error e
    | Except.ok true => Except.ok (some c.name)
    | Except.ok false => findScope rest fparts

/-- `ProfileEntry.__init__` up to and excluding the empty-file check: strip a
command scope, strip a leading `no`, take the flag name and the inline
values. -/
def parseEntryName (path : String) (item : FileItem) :
    Except Err ProfileEntry :=
  match findScope commandList item.parts with
  | Except.error e => Except.error e
  | Except.ok scope =>
    let fparts := match scope with
      | some _ => item.parts.tail
      | none => item.parts
    if fparts.head? = some "no" then
      match fparts.tail with
      | [] => Except.error Err.indexError
      | flagName :: values =>
        Except.ok { path := path, command := scope, remove := true,
                    flagName := flagName, values := values,
                    content := item.content }
    else
      match fparts with
      | [] => Except.error Err.indexError
      | flagName :: values =>
        Except.ok { path := path, command := scope, remove := false,
                    flagName := flagName, values := values,
                    content := item.content }

/-- The trailing check of `ProfileEntry.__init__`:
`if self.values and path.stat().st_size: logging.error(...); sys.exit(2)`. -/
def entrySizeCheck (e : ProfileEntry) : Except Err ProfileEntry :=
  if e.values ≠ [] ∧ e.content ≠ [] then Except.error (Err.exit 2)
  else Except.ok e

/-- `ProfileEntry.__init__` in full. -/
def mkProfileEntry (path : String) (item : FileItem) :
    Except Err ProfileEntry :=
  match parseEntryName path item with
  | Except.error e => Except.error e
  | Except.ok e => entrySizeCheck e

/-! ## Flag instances (`Flag` and its subclasses) -/

/-- A runtime `Flag` object: its class, the `command` tag, the accumulated
`values`, and the `remove` marker. -/
structure FlagVal where
  cls : FlagClass
  command : Option String := none
  values : List String := []
  remove : Bool := false
deriving DecidableEq, Repr

/-- `Flag.__file_lines`: all stripped lines, empty lines and lines starting
with `#` excluded. -/
def fileLines (content : List String) : List String :=
  (content.map (·.trim)).filter (fun x => x ≠ "" ∧ ¬ x.startsWith "#")

/-- The value list the body of `Flag.add_values` computes before merging:
the entry's inline values, or the file's lines for a `resolve_content` flag
with no inline values, or the entry's path for a `FileFlag`. -/
def incomingValues (f : FlagVal) (e : ProfileEntry) : List String :=
  if f.cls.resolveContent then
    if e.values.isEmpty then fileLines e.content else e.values
  else
    if f.cls.isFile then [e.path] else e.values

def addValues (f : FlagVal) (e : ProfileEntry) : Except Err FlagVal :=
  -- `Flag.add_values` with the `BinaryFlag.add_values` override (pass) and
  -- the `FileFlag.add_values` override (`PyPath` mapping, the identity here).
  if f.cls.isBinary then Except.ok f
  else
    let values := incomingValues f e
    if f.cls.multi then Except.ok { f with values := f.values ++ values }
    else if f.values.length + values.length > 1 then
      Except.error (Err.exit 2)
    else Except.ok { f with values := values }

/-- `Flag.__init__(entry)` followed by `Flag.add(entry)`: a removal entry only
sets the `remove` marker (note that it does not record the entry's command),
any other entry records the command tag and adds the values. -/
def flagInit (cls : FlagClass) (e : ProfileEntry) : Except Err FlagVal :=
  if e.remove then Except.ok { cls := cls, remove := true }
  else addValues { cls := cls, command := e.command } e

/-- `ProfileEntry.flag()`: `None` when the entry is scoped to a different
command, otherwise a fresh flag instance of the class registered under the
entry's flag name (`KeyError` when the name is unknown). -/
def entryFlag (mainCommand : String) (e : ProfileEntry) :
    Except Err (Option FlagVal) :=
  if e.command ≠ none ∧ e.command ≠ some mainCommand then Except.ok none
  else
    match findFlagClass e.flagName with
    | none => Except.error Err.keyError
    | some cls =>
      match flagInit cls e with
      | Except.error err => Except.error err
      | Except.ok f => Except.ok (some f)

/-! ## The file system and `Profile.scan` / `Profile.choices` -/

/-- One entry of a `<basedir>/restaround` directory as seen by `iterdir()`:
its name, whether it is a directory, and (for directories) the contained
profile files. -/
structure RootEntry where
  name : String
  isDir : Bool
  files : List FileItem
deriving DecidableEq, Repr

/-- The file-system state relevant to the program: the listing of
`/etc/restaround` and of `~/.config/restaround` (`none` when the `restaround`
directory does not exist).  `PATHS` applies `/etc` before `~/.config`. -/
structure FS where
  etc : Option (List RootEntry)
  user : Option (List RootEntry)
deriving DecidableEq, Repr

/-- `basedir / 'restaround' / profile_name` followed by `is_dir()`:
the files of the profile directory, if it exists and is a directory. -/
def lookupProfileDir (root : Option (List RootEntry)) (name : String) :
    Option (List FileItem) :=
  match (root.getD []).find? (fun e => e.name == name) with
  | some e => if e.isDir then some e.files else none
  | none => none

/-- The base-name of a file item (only used to rebuild `entry.path`). -/
def FileItem.fname (it : FileItem) : String :=
  String.intercalate "_" it.parts

/-- `ProfileEntry(profile_dir / filename).flag()` for one directory item. -/
def scanItem (cmd : String) (path : String) (it : FileItem) :
    Except Err (Option FlagVal) :=
  match mkProfileEntry path it with
  | Except.error e => Except.error e
  | Except.ok entry => entryFlag cmd entry

def scanDir (cmd : String) (accepts : List FlagClass) (dirPath : String) :
    List FileItem → Except Err (List FlagVal)
  | [] => Except.ok []
  | it :: rest =>
    match scanItem cmd (dirPath ++ "/" ++ it.fname) it with
    | Except.error e => Except.error e
    | Except.ok fl =>
      match scanDir cmd accepts dirPath rest with
      | Except.error e => Except.error e
      | Except.ok tail =>
        match fl with
        | some f =>
          if accepts.contains f.cls then Except.ok (f :: tail)
          else Except.ok tail
        | none => Except.ok tail

/-- One search path's contribution to `Profile.scan`. -/
def scanPath (cmd : String) (accepts : List FlagClass) (base : String)
    (root : Option (List RootEntry)) (profileName : String) :
    Except Err (List FlagVal) :=
  match lookupProfileDir root profileName with
  | some files =>
    scanDir cmd accepts (base ++ "/restaround/" ++ profileName) files
  | none => Except.ok []

/-- `Profile.scan(profile_name)`: both search paths in `PATHS` order
(`/etc` first, `~/.config` second). -/
def scan (fs : FS) (cmd : String) (profileName : String) :
    Except Err (List FlagVal) :=
  match scanPath cmd (commandAccepts cmd) "/etc" fs.etc profileName with
  | Except.error e => Except.error e
  | Except.ok l1 =>
    match scanPath cmd (commandAccepts cmd) "~/.config" fs.user profileName
        with
    | Except.error e => Except.error e
    | Except.ok l2 => Except.ok (l1 ++ l2)

/-- Code-point lexicographic comparison of character lists: Python's `str`
comparison, written structurally so that it evaluates. -/
def charsLe : List Char → List Char → Bool
  | [], _ => true
  | _ :: _, [] => false
  | a :: as, b :: bs =>
    if a < b then true
    else if b < a then false
    else charsLe as bs

/-- Python's `<=` on strings (code-point lexicographic). -/
def strLe (a b : String) : Bool := charsLe a.data b.data

/-- Stable insertion used by `sortByKey` (the model of Python's stable
`sorted`). -/
def insertByKey (key : FlagVal → String) (a : FlagVal) :
    List FlagVal → List FlagVal
  | [] => [a]
  | b :: t =>
    if strLe (key a) (key b) then a :: b :: t else b :: insertByKey key a t

/-- Stable sort by a string key, as Python's `sorted(..., key=...)`. -/
def sortByKey (key : FlagVal → String) : List FlagVal → List FlagVal
  | [] => []
  | a :: t => insertByKey key a (sortByKey key t)

/-- The sort key of `Profile.inherit`: `x.command or ''`. -/
def commandKey (f : FlagVal) : String := f.command.getD ""

/-- Sorted insertion of a string (used to model Python's `sorted` on plain
strings). -/
def insertStr (a : String) : List String → List String
  | [] => [a]
  | b :: t => if strLe a b then a :: b :: t else b :: insertStr a t

/-- Python's `sorted` on plain strings. -/
def sortStrings : List String → List String
  | [] => []
  | a :: t => insertStr a (sortStrings t)

/-- `Profile.choices()`: `help`, `selftest`, and every name listed in an
existing `restaround` directory, de-duplicated, without `default`, sorted. -/
def choices (fs : FS) : List String :=
  let result := ["help", "selftest"]
    ++ (fs.etc.getD []).map (·.name) ++ (fs.user.getD []).map (·.name)
  sortStrings (result.dedup.filter (fun x => x ≠ "default"))

/-! ## The profile (`Profile`) -/

/-- The resolved profile state: the `flags` dict, keyed by `restic_name` and
in Python-dict insertion order. -/
structure Profile where
  flags : List (String × FlagVal)
deriving DecidableEq, Repr

/-- Python-dict read. -/
def dictGet (m : List (String × FlagVal)) (k : String) : Option FlagVal :=
  (m.find? (fun p => p.1 == k)).map (·.2)

/-- Python-dict write: update in place, or append a new key. -/
def dictSet (m : List (String × FlagVal)) (k : String) (v : FlagVal) :
    List (String × FlagVal) :=
  if m.any (fun p => p.1 == k) then
    m.map (fun p => if p.1 == k then (k, v) else p)
  else m ++ [(k, v)]

/-- Python-dict `del` (`del profile.flags[flag_name]` guarded by the `in`
test). -/
def dictErase (m : List (String × FlagVal)) (k : String) :
    List (String × FlagVal) :=
  m.filter (fun p => p.1 ≠ k)

/-- `Flag.__iadd__`: concatenate the other flag's values. -/
def iaddFlag (self other : FlagVal) : FlagVal :=
  { self with values := self.values ++ other.values }

/-- `Flag.apply_to(profile)` for a non-`Inherit` flag: insert, or `+=` for a
multi flag, or replace. -/
def dictApply (p : Profile) (f : FlagVal) : Profile :=
  let k := f.cls.name
  match dictGet p.flags k with
  | none => ⟨dictSet p.flags k f⟩
  | some old =>
    if f.cls.multi then ⟨dictSet p.flags k (iaddFlag old f)⟩
    else ⟨dictSet p.flags k f⟩

/-- `Flag.remove_from(profile)`, with the `Inherit.remove_from` override
(`no_inherit is not implemented`, exit 2). -/
def removeFrom (p : Profile) (f : FlagVal) : Except Err Profile :=
  if f.cls.isInherit then Except.error (Err.exit 2)
  else Except.ok ⟨dictErase p.flags f.cls.name⟩

/-- The value loop of `Inherit.apply_to`: `for _ in self.values:
profile.inherit(_)`. -/
def inheritSeq (recur : String → Profile → Except Err Profile) :
    List String → Profile → Except Err Profile
  | [], p => Except.ok p
  | v :: rest, p =>
    match recur v p with
    | Except.error e => Except.error e
    | Except.ok p => inheritSeq recur rest p

/-- `Flag.apply_to` with the `Inherit.apply_to` override: an inherit flag
recursively resolves each named profile (through `recur`), any other flag goes
into the dict. -/
def applyOne (recur : String → Profile → Except Err Profile)
    (f : FlagVal) (p : Profile) : Except Err Profile :=
  if f.cls.isInherit then inheritSeq recur f.values p
  else Except.ok (dictApply p f)

/-- A `for flag in ...: flag.apply_to(self)` loop. -/
def applyAll (recur : String → Profile → Except Err Profile) :
    List FlagVal → Profile → Except Err Profile
  | [], p => Except.ok p
  | f :: rest, p =>
    match applyOne recur f p with
    | Except.error e => Except.error e
    | Except.ok p => applyAll recur rest p

/-- The `for flag in negative: flag.remove_from(self)` loop. -/
def removeAll : List FlagVal → Profile → Except Err Profile
  | [], p => Except.ok p
  | f :: rest, p =>
    match removeFrom p f with
    | Except.error e => Except.error e
    | Except.ok p => removeAll rest p

/-- `Profile.inherit(profile_name)`: scan, sort by command key (stably, so
command-scoped flags come after unscoped ones), apply inherit flags first,
then the positive flags, then the removals.  The fuel bounds the recursion
depth of the (cycle-detection-free) original. -/
def inheritProfile (fs : FS) (cmd : String) :
    Nat → String → Profile → Except Err Profile
  | 0, _, _ => Except.error Err.fuelOut
  | fuel + 1, profileName, prof =>
    match scan fs cmd profileName with
    | Except.error e => Except.error e
    | Except.ok scanned =>
      let given := sortByKey commandKey scanned
      let inheritFlags := given.filter (fun x => x.cls.isInherit)
      let others := given.filter (fun x => ¬ x.cls.isInherit)
      let positive := others.filter (fun x => ¬ x.remove)
      let negative := others.filter (fun x => x.remove)
      match applyAll (inheritProfile fs cmd fuel) inheritFlags prof with
      | Except.error e => Except.error e
      | Except.ok prof =>
        match applyAll (inheritProfile fs cmd fuel) positive prof with
        | Except.error e => Except.error e
        | Except.ok prof => removeAll negative prof

/-- The command-line options relevant to profile resolution: the requested
profile name and, for each flag given on the command line (value neither
`None` nor `False`), its class and value list. -/
structure Options where
  profile : String
  flagOpts : List (FlagClass × List String)
deriving DecidableEq, Repr

/-- Lookup of `options.__dict__[flag_class.__name__.lower()]`; argparse keys
and flag classes are in bijection for the accepted flags. -/
def optValues (o : Options) (cls : FlagClass) : Option (List String) :=
  (o.flagOpts.find? (fun p => p.1 == cls)).map (·.2)

/-- The loop body of `Profile.use_options()` over the accepted flag
classes. -/
def useOptionsGo (recur : String → Profile → Except Err Profile)
    (o : Options) : List FlagClass → Profile → Except Err Profile
  | [], p => Except.ok p
  | cls :: rest, p =>
    match optValues o cls with
    | none => useOptionsGo recur o rest p
    | some vals =>
      match applyOne recur { cls := cls, values := vals } p with
      | Except.error e => Except.error e
      | Except.ok p => useOptionsGo recur o rest p

/-- `Profile.use_options()`: for each accepted flag class that was given on
the command line, build a fresh flag with the given values and apply it. -/
def useOptions (fs : FS) (cmd : String) (fuel : Nat) (o : Options)
    (p : Profile) : Except Err Profile :=
  useOptionsGo (inheritProfile fs cmd fuel) o (commandAccepts cmd) p

/-- `Profile.__init__(options)`: inherit `default`, inherit the requested
profile, then apply the command-line options. -/
def profileInit (fs : FS) (cmd : String) (fuel : Nat) (o : Options) :
    Except Err Profile :=
  match inheritProfile fs cmd fuel "default" ⟨[]⟩ with
  | Except.error e => Except.error e
  | Except.ok p =>
    match inheritProfile fs cmd fuel o.profile p with
    | Except.error e => Except.error e
    | Except.ok p => useOptions fs cmd fuel o p

/-! ## Rendering (`Flag.args`, `Profile.sorted_flags`,
`Profile.restic_parameters`, `Command.run_args`) -/

/-- `args()` with its overrides, in Python MRO order: `ScriptFlag` renders
nothing, `PositionalFlag` renders its values verbatim, `BinaryFlag` renders
`--name` once, the base class renders `--name=value` per value. -/
def flagArgs (f : FlagVal) : List String :=
  if f.cls.isScript then []
  else if f.cls.isPositional then f.values
  else if f.cls.isBinary then ["--" ++ f.cls.name]
  else f.values.map (fun v => "--" ++ f.cls.name ++ "=" ++ v)

/-- `Profile.find_flags(flag_class)`: all dict values of exactly that
class. -/
def findFlags (p : Profile) (cls : FlagClass) : List FlagVal :=
  (p.flags.map (·.2)).filter (fun f => f.cls == cls)

/-- `Profile.sorted_flags()`: iterate the accepted classes in declaration
order. -/
def sortedFlags (cmd : String) (p : Profile) : List FlagVal :=
  (commandAccepts cmd).flatMap (fun cls => findFlags p cls)

/-- `Profile.restic_parameters()`. -/
def resticParameters (cmd : String) (p : Profile) : List String :=
  (sortedFlags cmd p).flatMap flagArgs

/-- `Command.run_args(profile)`. -/
def runArgs (cmd : String) (p : Profile) : List String :=
  ["restic", cmd] ++ resticParameters cmd p

/-! ## The invocation runner (`Command.run`) and the exit-code remap
(`Main.__init__`)

The subprocess boundary is abstracted by a `RunWorld` assigning an exit code
to each script path and to the main command.  On POSIX, a `returncode`
obtained from a child process is the decoded wait status: `0..255` for a
normal exit or `-N` for death by signal `N`; in particular its absolute value
is below 256.  Environment-variable feedback and the profile re-resolution
after each pre-hook are omitted here: they do not affect which processes run
or which exit code is returned (the pre-hook list is a generator over the
original profile object in the source). -/

/-- Exit codes of the child processes, as observed by `check_output` /
`call`. -/
structure RunWorld where
  scriptCode : String → Int
  mainCode : Int

/-- One observable process start, mirroring the entries appended to
`Main.run_history`. -/
inductive RunEvent where
  | script (path : String)
  | mainCommand
deriving DecidableEq, Repr

/-- The pre-hook loop of `Command.run`: run each script; on the first
non-zero exit code return it at once. -/
def runPreScripts (w : RunWorld) : List String → Int × List RunEvent
  | [] => (0, [])
  | s :: rest =>
    let c := w.scriptCode s
    if c ≠ 0 then (c, [RunEvent.script s])
    else
      let (r, evs) := runPreScripts w rest
      (r, RunEvent.script s :: evs)

/-- `Command.run(profile, options)`: dry mode runs nothing and returns 0;
live mode runs the pre-hooks (aborting on the first failure), the main
command, then all post-hooks (whose exit codes are ignored), and returns the
main command's exit code. -/
def commandRun (w : RunWorld) (dry : Bool) (pres posts : List String) :
    Int × List RunEvent :=
  if dry then (0, [])
  else
    let (c, evs) := runPreScripts w pres
    if c ≠ 0 then (c, evs)
    else
      (w.mainCode,
        evs ++ [RunEvent.mainCommand] ++ posts.map RunEvent.script)

/-- The exit-code remap at the end of `Main.__init__`:
`if self.returncode and self.returncode % 256 == 0: self.returncode -= 1`. -/
def remapReturncode (r : Int) : Int :=
  if r ≠ 0 ∧ r % 256 = 0 then r - 1 else r

/-- The overall process exit code: `Command.run`'s result put through the
remap. -/
def mainExitCode (w : RunWorld) (dry : Bool) (pres posts : List String) :
    Int :=
  remapReturncode (commandRun w dry pres posts).1

/-! ## Claim-side definitions

These two definitions follow the *spec's words* (not the source); they exist
only to be compared with the source-derived definitions above. -/

/-- The entry-name grammar exactly as the specification states it: split on
underscores; strip a leading command-scope part exactly when the first part is
a known subcommand name and the second part is a known flag name or is the
literal `no` followed by a known flag name; then a remaining leading `no`
marks a removal and is dropped; the next part is the flag name and the rest
are inline values.  (Total function; the degenerate case of no remaining part
yields the empty flag name.) -/
def claimEntryParse (parts : List String) :
    Option String × Bool × String × List String :=
  let strip : Bool :=
    match parts with
    | p0 :: p1 :: rest =>
      commandNames.contains p0 &&
        (flagNames.contains p1 ||
          (p1 == "no" && (match rest with
            | p2 :: _ => flagNames.contains p2
            | [] => false)))
    | _ => false
  let cmdScope : Option String := if strip then parts.head? else none
  let rest1 : List String := if strip then parts.tail else parts
  let isRemove : Bool := rest1.head? == some "no"
  let rest2 : List String := if isRemove then rest1.tail else rest1
  (cmdScope, isRemove, rest2.headD "", rest2.tail)

/-- The inputs on which `ProfileEntry.__init__` raises an uncaught
`IndexError` instead of parsing: a name that is exactly `no`, or a known
subcommand name followed by exactly `no`. -/
def entryParseCrashes (parts : List String) : Prop :=
  parts = ["no"] ∨
    ∃ c, parts = [c, "no"] ∧ commandNames.contains c = true

instance (parts : List String) : Decidable (entryParseCrashes parts) := by
  unfold entryParseCrashes
  refine @instDecidableOr _ _ inferInstance ?_
  match parts with
  | [c, p] =>
    refine decidable_of_iff (p = "no" ∧ commandNames.contains c = true) ?_
    constructor
    · rintro ⟨rfl, h⟩; exact ⟨c, rfl, h⟩
    · rintro ⟨c', h, hc⟩
      cases h; exact ⟨rfl, hc⟩
  | [] => exact Decidable.isFalse (by rintro ⟨c, h, -⟩; cases h)
  | [a] => exact Decidable.isFalse (by rintro ⟨c, h, -⟩; cases h)
  | a :: b :: c :: t =>
    exact Decidable.isFalse (by rintro ⟨c', h, -⟩; cases h)

/-- The choices exactly as the claim states them: the sorted, de-duplicated
union of the *subdirectory* names found under each search path's `restaround`
directory, plus `help` and `selftest`, with `default` excluded. -/
def claimedChoices (fs : FS) : List String :=
  let result := ["help", "selftest"]
    ++ ((fs.etc.getD []).filter (·.isDir)).map (·.name)
    ++ ((fs.user.getD []).filter (·.isDir)).map (·.name)
  sortStrings (result.dedup.filter (fun x => x ≠ "default"))

/-! # Theorems -/

/-! ## Small facts about the runner -/

theorem runPreScripts_all_zero (w : RunWorld) (l : List String)
    (h : ∀ s ∈ l, w.scriptCode s = 0) :
    runPreScripts w l = (0, l.map RunEvent.script) := by
  induction l with
  | nil => rfl
  | cons s rest ih =>
    have hs : w.scriptCode s = 0 := h s (List.mem_cons_self s rest)
    have hr : ∀ x ∈ rest, w.scriptCode x = 0 :=
      fun x hx => h x (List.mem_cons_of_mem s hx)
    simp [runPreScripts, hs, ih hr]

/-- **C4** (exit-code remap, amended).  The remap at the end of
`Main.__init__` decrements every *non-zero* exit code that is an exact
multiple of 256 — so in particular every exact positive multiple of 256 is
reported as one less — and leaves every other exit code unchanged; when all
pre-hook scripts succeed, the overall process exit code is exactly the remap
of the main command's exit code.  (The claim's phrase "every other
main-command exit code is passed through unchanged" fails for negative exact
multiples of 256, see the counterexample.) -/
theorem c4_exit_code_remap (r : Int) :
    ((∃ k : Int, 0 < k ∧ r = 256 * k) → remapReturncode r = r - 1) ∧
    (r ≠ 0 → r % 256 = 0 → remapReturncode r = r - 1) ∧
    (r % 256 ≠ 0 ∨ r = 0 → remapReturncode r = r) ∧
    (∀ (w : RunWorld) (pres posts : List String),
      (∀ s ∈ pres, w.scriptCode s = 0) → w.mainCode = r →
      mainExitCode w false pres posts = remapReturncode r) := by
  refine ⟨?_, ?_, ?_, ?_⟩
  · rintro ⟨k, hk, rfl⟩
    have hne : 256 * k ≠ 0 := by positivity
    simp [remapReturncode, hne, Int.mul_emod_right]
  · intro h0 hmod
    simp [remapReturncode, h0, hmod]
  · rintro (hmod | rfl)
    · simp [remapReturncode, hmod]
    · simp [remapReturncode]
  · intro w pres posts hz hmain
    simp [mainExitCode, commandRun, runPreScripts_all_zero w pres hz, hmain]

/-- **C4** (counterexample to the claim as stated): `-256` is not an exact
positive multiple of 256, yet the code remaps it to `-257` instead of passing
it through unchanged (`returncode % 256 == 0` holds for negative multiples
too). -/
theorem c4_exit_code_remap_counterexample :
    remapReturncode (-256) = -257 ∧ (-256 : Int) < 0 := by
  constructor
  · decide
  · decide

/-- **C4** witness: the amended theorem applied at `r = 512` with a concrete
world whose main command exits with 512 and with no hooks. -/
theorem c4_exit_code_remap_witness :
    remapReturncode 512 = 511 ∧
    mainExitCode ⟨fun _ => 0, 512⟩ false [] [] = 511 := by
  have h := c4_exit_code_remap 512
  refine ⟨h.1 ⟨2, by decide, by decide⟩, ?_⟩
  have h2 := h.2.2.2 ⟨fun _ => 0, 512⟩ [] [] (by intro s hs; cases hs) rfl
  rw [h2, h.1 ⟨2, by decide, by decide⟩]
  decide

/-- **C5** (single-valued flag conflict, amended).  When a single-valued,
non-binary flag already holds values and the incoming entry would make the
total value count exceed one, `Flag.add_values` logs an error and exits with
status 2 — the resolution aborts instead of continuing with a warning; when
the total count stays at most one the incoming values replace the stored
ones and resolution continues. -/
theorem c5_single_value_conflict (f : FlagVal) (e : ProfileEntry)
    (hb : f.cls.isBinary = false) (hm : f.cls.multi = false) :
    (f.values.length + (incomingValues f e).length > 1 →
      addValues f e = Except.error (Err.exit 2)) ∧
    (f.values.length + (incomingValues f e).length ≤ 1 →
      addValues f e = Except.ok { f with values := incomingValues f e }) := by
  constructor
  · intro hgt
    simp [addValues, hb, hm, hgt]
  · intro hle
    have : ¬ (f.values.length + (incomingValues f e).length > 1) := by omega
    simp [addValues, hb, hm, this]

/-- **C5** (counterexample to the claim as stated): a `verbose` flag already
holding one value, fed an entry with one more inline value, does not warn and
continue — `Flag.add_values` terminates the process with exit status 2. -/
theorem c5_single_value_conflict_counterexample :
    addValues { cls := verboseClass, values := ["1"] }
      { path := "p", command := none, remove := false, flagName := "verbose",
        values := ["2"], content := [] } = Except.error (Err.exit 2) := by
  rfl

/-- **C5** witness: the amended theorem applied to the `verbose` flag with
one stored and one incoming value. -/
theorem c5_single_value_conflict_witness :
    addValues { cls := verboseClass, values := ["1"] }
      { path := "p", command := none, remove := false, flagName := "verbose",
        values := ["2"], content := [] } = Except.error (Err.exit 2) ∧
    addValues { cls := verboseClass, values := [] }
      { path := "p", command := none, remove := false, flagName := "verbose",
        values := ["2"], content := [] } =
      Except.ok { cls := verboseClass, values := ["2"] } := by
  constructor
  · exact (c5_single_value_conflict
      { cls := verboseClass, values := ["1"] }
      { path := "p", command := none, remove := false, flagName := "verbose",
        values := ["2"], content := [] } (by decide) (by decide)).1 (by decide)
  · exact (c5_single_value_conflict
      { cls := verboseClass, values := [] }
      { path := "p", command := none, remove := false, flagName := "verbose",
        values := ["2"], content := [] } (by decide) (by decide)).2 (by decide)

/-- **C7** (pre-hook failure).  In live mode, when all pre-hooks before `s`
succeed and `s` exits non-zero, `Command.run` stops at `s`: the processes
started are exactly the pre-hooks up to and including `s` (no remaining
pre-hook, no main command, no post-hook), and the overall exit code is
exactly `s`'s exit code — the remap does not change it, because a POSIX
returncode is a decoded wait status in `(-256, 256)` and a non-zero value in
that range is never a multiple of 256. -/
theorem c7_pre_hook_failure (w : RunWorld) (pre1 rest posts : List String)
    (s : String) (h1 : ∀ p ∈ pre1, w.scriptCode p = 0)
    (h2 : w.scriptCode s ≠ 0) (h3 : -256 < w.scriptCode s)
    (h4 : w.scriptCode s < 256) :
    commandRun w false (pre1 ++ s :: rest) posts
      = (w.scriptCode s, (pre1 ++ [s]).map RunEvent.script) ∧
    RunEvent.mainCommand ∉ ((pre1 ++ [s]).map RunEvent.script) ∧
    mainExitCode w false (pre1 ++ s :: rest) posts = w.scriptCode s := by
  have hpre : runPreScripts w (pre1 ++ s :: rest)
      = (w.scriptCode s, (pre1 ++ [s]).map RunEvent.script) := by
    induction pre1 with
    | nil => simp [runPreScripts, h2]
    | cons p t ih =>
      have hp : w.scriptCode p = 0 := h1 p (List.mem_cons_self p t)
      have ht : ∀ x ∈ t, w.scriptCode x = 0 :=
        fun x hx => h1 x (List.mem_cons_of_mem p hx)
      simp [runPreScripts, hp, ih ht]
  have hrun : commandRun w false (pre1 ++ s :: rest) posts
      = (w.scriptCode s, (pre1 ++ [s]).map RunEvent.script) := by
    simp [commandRun, hpre, h2]
  refine ⟨hrun, ?_, ?_⟩
  · intro hmem
    rcases List.mem_map.mp hmem with ⟨x, -, hx⟩
    cases hx
  · have hmod : w.scriptCode s % 256 ≠ 0 := by
      intro h0
      have hdvd : (256 : Int) ∣ w.scriptCode s := Int.dvd_of_emod_eq_zero h0
      have habs : |w.scriptCode s| < 256 := abs_lt.mpr ⟨h3, h4⟩
      exact h2 (Int.eq_zero_of_abs_lt_dvd hdvd habs)
    simp [mainExitCode, hrun, remapReturncode, hmod]

/-- **C7** witness: a world in which the first pre-hook succeeds and the
second exits 3 (the scenario of the repository's own `test_pre_fail` test). -/
theorem c7_pre_hook_failure_witness :
    commandRun ⟨fun p => if p = "hook2" then 3 else 0, 7⟩ false
        ["hook1", "hook2", "hook3"] ["post1"]
      = (3, [RunEvent.script "hook1", RunEvent.script "hook2"]) ∧
    mainExitCode ⟨fun p => if p = "hook2" then 3 else 0, 7⟩ false
        ["hook1", "hook2", "hook3"] ["post1"] = 3 := by
  have h := c7_pre_hook_failure ⟨fun p => if p = "hook2" then 3 else 0, 7⟩
    ["hook1"] ["hook3"] ["post1"] "hook2"
    (by intro p hp; simp at hp; subst hp; decide)
    (by decide) (by decide) (by decide)
  exact ⟨h.1, h.2.2⟩

/-! ## Characterizing the entry-name parser -/

theorem contains_map_name (L : List Cmd) (p0 : String) :
    (L.map (·.name)).contains p0 = true ↔ ∃ c ∈ L, c.name = p0 := by
  induction L with
  | nil => simp
  | cons c rest ih =>
    simp only [List.map_cons, List.contains_cons, Bool.or_eq_true, beq_iff_eq,
      List.exists_mem_cons_iff, ih]
    constructor
    · rintro (h | h)
      · exact Or.inl h.symm
      · exact Or.inr h
    · rintro (h | h)
      · exact Or.inl h.symm
      · exact Or.inr h

theorem scopeMatch_nil (cname : String) :
    scopeMatch cname [] = Except.ok false := rfl

theorem scopeMatch_single (cname p0 : String) :
    scopeMatch cname [p0] = Except.ok false := rfl

theorem scopeMatch_of_ne (cname p0 : String) (p1 : String) (t : List String)
    (h : cname ≠ p0) : scopeMatch cname (p0 :: p1 :: t) = Except.ok false := by
  simp [scopeMatch, h]

theorem findScope_nil_parts (L : List Cmd) :
    findScope L [] = Except.ok none := by
  induction L with
  | nil => rfl
  | cons c rest ih => simp [findScope, scopeMatch_nil, ih]

theorem findScope_single (L : List Cmd) (p0 : String) :
    findScope L [p0] = Except.ok none := by
  induction L with
  | nil => rfl
  | cons c rest ih => simp [findScope, scopeMatch_single, ih]

theorem findScope_of_not_mem (L : List Cmd) (p0 p1 : String) (t : List String)
    (h : ∀ c ∈ L, c.name ≠ p0) :
    findScope L (p0 :: p1 :: t) = Except.ok none := by
  induction L with
  | nil => rfl
  | cons c rest ih =>
    have hc : c.name ≠ p0 := h c (List.mem_cons_self c rest)
    have hr : ∀ x ∈ rest, x.name ≠ p0 :=
      fun x hx => h x (List.mem_cons_of_mem c hx)
    simp [findScope, scopeMatch_of_ne _ _ _ _ hc, ih hr]

theorem findScope_found (L : List Cmd) (p0 p1 : String) (t : List String)
    (hmem : ∃ c ∈ L, c.name = p0) (hflag : flagNames.contains p1 = true) :
    findScope L (p0 :: p1 :: t) = Except.ok (some p0) := by
  induction L with
  | nil => simp at hmem
  | cons c rest ih =>
    by_cases hc : c.name = p0
    · subst hc
      have hflag' : p1 ∈ flagNames := by simpa using hflag
      simp [findScope, scopeMatch, hflag']
    · rcases hmem with ⟨c', hc', hname⟩
      rcases List.mem_cons.mp hc' with rfl | hmem'
      · exact absurd hname hc
      · simp [findScope, scopeMatch_of_ne _ _ _ _ hc, ih ⟨c', hmem', hname⟩]

theorem findScope_no_flag (L : List Cmd) (p0 p1 : String) (t : List String)
    (h1 : flagNames.contains p1 = false) (h2 : p1 ≠ "no") :
    findScope L (p0 :: p1 :: t) = Except.ok none := by
  induction L with
  | nil => rfl
  | cons c rest ih =>
    by_cases hc : c.name = p0
    · subst hc
      have h1' : p1 ∉ flagNames := by simpa using h1
      simp [findScope, scopeMatch, h1', h2, ih]
    · simp [findScope, scopeMatch_of_ne _ _ _ _ hc, ih]

theorem findScope_crash (L : List Cmd) (p0 : String)
    (hmem : ∃ c ∈ L, c.name = p0) :
    findScope L [p0, "no"] = Except.error Err.indexError := by
  have hno : flagNames.contains "no" = false := by decide
  induction L with
  | nil => simp at hmem
  | cons c rest ih =>
    by_cases hc : c.name = p0
    · subst hc
      have hno' : "no" ∉ flagNames := by simpa using hno
      simp [findScope, scopeMatch, hno']
    · rcases hmem with ⟨c', hc', hname⟩
      rcases List.mem_cons.mp hc' with rfl | hmem'
      · exact absurd hname hc
      · simp [findScope, scopeMatch_of_ne _ _ _ _ hc, ih ⟨c', hmem', hname⟩]

theorem findScope_no_second (L : List Cmd) (p0 p2 : String) (t : List String)
    (hp2 : flagNames.contains p2 = true) (hmem : ∃ c ∈ L, c.name = p0) :
    findScope L (p0 :: "no" :: p2 :: t) = Except.ok (some p0) := by
  have hno : flagNames.contains "no" = false := by decide
  induction L with
  | nil => simp at hmem
  | cons c rest ih =>
    by_cases hc : c.name = p0
    · subst hc
      have hno' : "no" ∉ flagNames := by simpa using hno
      have hp2' : p2 ∈ flagNames := by simpa using hp2
      simp [findScope, scopeMatch, hno', hp2']
    · rcases hmem with ⟨c', hc', hname⟩
      rcases List.mem_cons.mp hc' with rfl | hmem'
      · exact absurd hname hc
      · simp [findScope, scopeMatch_of_ne _ _ _ _ hc, ih ⟨c', hmem', hname⟩]

theorem findScope_no_second_not_flag (L : List Cmd) (p0 p2 : String)
    (t : List String) (hp2 : flagNames.contains p2 = false) :
    findScope L (p0 :: "no" :: p2 :: t) = Except.ok none := by
  have hno : flagNames.contains "no" = false := by decide
  induction L with
  | nil => rfl
  | cons c rest ih =>
    by_cases hc : c.name = p0
    · subst hc
      have hno' : "no" ∉ flagNames := by simpa using hno
      have hp2' : p2 ∉ flagNames := by simpa using hp2
      simp [findScope, scopeMatch, hno', hp2', ih]
    · simp [findScope, scopeMatch_of_ne _ _ _ _ hc, ih]

theorem commandNames_contains_iff (p0 : String) :
    commandNames.contains p0 = true ↔ ∃ c ∈ commandList, c.name = p0 :=
  contains_map_name commandList p0

theorem commandNames_not_contains (p0 : String)
    (h : commandNames.contains p0 = false) : ∀ c ∈ commandList, c.name ≠ p0 := by
  intro c hc hname
  have : commandNames.contains p0 = true :=
    (commandNames_contains_iff p0).mpr ⟨c, hc, hname⟩
  rw [this] at h
  cases h

/-! ## C2: the entry-name micro-grammar -/

/-- **C2** (entry filename parsing, amended).  For every file name whose
underscore-split parts are not of the crashing shapes (`no` alone, or a known
subcommand name followed by a bare `no`), `ProfileEntry.__init__` computes
exactly the command scope, removal marker, flag name and inline values that
the specification's algorithm describes.  (On the crashing shapes the Python
code raises an uncaught `IndexError`; see the counterexample.) -/
theorem c2_entry_name_parsing (path : String) (parts content : List String)
    (hne : parts ≠ []) (hcrash : ¬ entryParseCrashes parts) :
    parseEntryName path ⟨parts, content⟩ =
      Except.ok { path := path, command := (claimEntryParse parts).1,
                  remove := (claimEntryParse parts).2.1,
                  flagName := (claimEntryParse parts).2.2.1,
                  values := (claimEntryParse parts).2.2.2,
                  content := content } := by
  have hnoCmd : commandNames.contains "no" = false := by decide
  have hnoFlag : flagNames.contains "no" = false := by decide
  match parts, hne with
  | [p0], _ =>
    have hp0 : p0 ≠ "no" := by
      intro h
      exact hcrash (Or.inl (by rw [h]))
    simp [parseEntryName, findScope_single, claimEntryParse, hp0]
  | p0 :: p1 :: t, _ =>
    rcases hc : commandNames.contains p0 with _ | _
    · -- p0 is not a command name: no scope strip.
      have hnm := commandNames_not_contains p0 hc
      have hfs := findScope_of_not_mem commandList p0 p1 t hnm
      have hc' : p0 ∉ commandNames := by simpa using hc
      by_cases hp0 : p0 = "no"
      · subst hp0
        simp [parseEntryName, hfs, claimEntryParse, hc']
      · simp [parseEntryName, hfs, claimEntryParse, hc', hp0]
    · -- p0 is a command name.
      have hmem := (commandNames_contains_iff p0).mp hc
      have hp0no : p0 ≠ "no" := by
        intro h
        rw [h] at hc
        rw [hc] at hnoCmd
        cases hnoCmd
      have hc' : p0 ∈ commandNames := by simpa using hc
      rcases hf1 : flagNames.contains p1 with _ | _
      · have hf1' : p1 ∉ flagNames := by simpa using hf1
        by_cases hp1 : p1 = "no"
        · subst hp1
          match t with
          | [] => exact absurd (Or.inr ⟨p0, rfl, hc⟩) hcrash
          | p2 :: t' =>
            rcases hf2 : flagNames.contains p2 with _ | _
            · have hf2' : p2 ∉ flagNames := by simpa using hf2
              have hfs := findScope_no_second_not_flag commandList p0 p2 t' hf2
              simp [parseEntryName, hfs, claimEntryParse, hc', hf1', hf2',
                hp0no]
            · have hf2' : p2 ∈ flagNames := by simpa using hf2
              have hfs := findScope_no_second commandList p0 p2 t' hf2 hmem
              simp [parseEntryName, hfs, claimEntryParse, hc', hf1', hf2']
        · have hfs := findScope_no_flag commandList p0 p1 t hf1 hp1
          simp [parseEntryName, hfs, claimEntryParse, hc', hf1', hp1, hp0no]
      · have hf1' : p1 ∈ flagNames := by simpa using hf1
        have hp1no : p1 ≠ "no" := by
          intro h
          rw [h] at hf1
          rw [hf1] at hnoFlag
          cases hnoFlag
        have hfs := findScope_found commandList p0 p1 t hmem hf1
        simp [parseEntryName, hfs, claimEntryParse, hc', hf1', hp1no]

/-- **C2** (counterexample to the claim as stated): on the file name
`backup_no` the claim's algorithm yields flag name `backup` with inline value
`no` (no scope strip, since `no` is not followed by a flag name), but
`ProfileEntry.__init__` raises an uncaught `IndexError` while evaluating
`fparts[2]`. -/
theorem c2_entry_name_parsing_counterexample :
    parseEntryName "p" ⟨["backup", "no"], []⟩ = Except.error Err.indexError ∧
    claimEntryParse ["backup", "no"] = (none, false, "backup", ["no"]) := by
  constructor
  · rfl
  · rfl

/-- **C2** witness: the amended theorem applied to the scoped removal file
name `backup_no_verbose`. -/
theorem c2_entry_name_parsing_witness :
    parseEntryName "p" ⟨["backup", "no", "verbose"], []⟩ =
      Except.ok { path := "p", command := some "backup", remove := true,
                  flagName := "verbose", values := [], content := [] } := by
  have h := c2_entry_name_parsing "p" ["backup", "no", "verbose"] []
    (by decide) (by decide)
  exact h

/-! ## C6: inline values demand an empty file -/

/-- **C6** (inline-value/content mutual exclusion).  For every profile entry
file whose name parses to an entry with inline values, a non-empty file is a
fatal configuration error — `ProfileEntry.__init__` exits with the non-zero
status 2 — while an empty file (and any entry without inline values) is
accepted unchanged. -/
theorem c6_inline_values_empty_file (path : String) (item : FileItem)
    (e : ProfileEntry) (hp : parseEntryName path item = Except.ok e) :
    (e.values ≠ [] → item.content ≠ [] →
      mkProfileEntry path item = Except.error (Err.exit 2)) ∧
    (e.values = [] ∨ item.content = [] →
      mkProfileEntry path item = Except.ok e) := by
  have hcontent : e.content = item.content := by
    unfold parseEntryName at hp
    split at hp
    · cases hp
    all_goals
      dsimp only [] at hp
      split at hp <;> split at hp <;> cases hp <;> rfl
  constructor
  · intro hv hct
    have hct' : e.content ≠ [] := by
      rw [hcontent]
      exact hct
    simp only [mkProfileEntry, hp]
    simp [entrySizeCheck, hv, hct']
  · intro hor
    simp only [mkProfileEntry, hp]
    rcases hor with hv | hct
    · simp [entrySizeCheck, hv]
    · have hct' : e.content = [] := by
        rw [hcontent]
        exact hct
      simp [entrySizeCheck, hct']

/-- **C6** witness: the entry `repo_x` (inline value `x`) with a non-empty
file aborts with exit status 2, and the same entry with an empty file is
accepted. -/
theorem c6_inline_values_empty_file_witness :
    mkProfileEntry "p" ⟨["repo", "x"], ["line"]⟩ =
      Except.error (Err.exit 2) ∧
    mkProfileEntry "p" ⟨["repo", "x"], []⟩ =
      Except.ok { path := "p", command := none, remove := false,
                  flagName := "repo", values := ["x"], content := [] } := by
  constructor
  · exact (c6_inline_values_empty_file "p" ⟨["repo", "x"], ["line"]⟩
      { path := "p", command := none, remove := false, flagName := "repo",
        values := ["x"], content := ["line"] } rfl).1
      (by decide) (by decide)
  · exact (c6_inline_values_empty_file "p" ⟨["repo", "x"], []⟩
      { path := "p", command := none, remove := false, flagName := "repo",
        values := ["x"], content := [] } rfl).2 (Or.inr rfl)

/-! ## The string order and the string sort -/

theorem charsLe_total : ∀ as bs : List Char,
    charsLe as bs = true ∨ charsLe bs as = true := by
  intro as
  induction as with
  | nil => intro bs; left; rfl
  | cons a as ih =>
    intro bs
    match bs with
    | [] => right; rfl
    | b :: bs =>
      rcases lt_trichotomy a b with hab | hab | hab
      · left
        simp [charsLe, hab]
      · subst hab
        rcases ih bs with h | h
        · left
          simp [charsLe, lt_irrefl, h]
        · right
          simp [charsLe, lt_irrefl, h]
      · right
        simp [charsLe, hab]

theorem charsLe_trans : ∀ as bs cs : List Char,
    charsLe as bs = true → charsLe bs cs = true → charsLe as cs = true := by
  intro as
  induction as with
  | nil =>
    intro bs cs h1 h2
    rfl
  | cons a as ih =>
    intro bs cs h1 h2
    match bs, cs with
    | [], _ => simp [charsLe] at h1
    | b :: bs, [] => simp [charsLe] at h2
    | b :: bs, c :: cs =>
      rcases lt_trichotomy a b with hab | hab | hab
      · rcases lt_trichotomy b c with hbc | hbc | hbc
        · have hac : a < c := lt_trans hab hbc
          simp [charsLe, hac]
        · subst hbc
          simp [charsLe, hab]
        · have hnbc : ¬ b < c := asymm hbc
          simp [charsLe, hnbc, hbc] at h2
      · subst hab
        have h1' : charsLe as bs = true := by
          simpa [charsLe, lt_irrefl] using h1
        rcases lt_trichotomy a c with hac | hac | hac
        · simp [charsLe, hac]
        · subst hac
          have h2' : charsLe bs cs = true := by
            simpa [charsLe, lt_irrefl] using h2
          simp [charsLe, lt_irrefl, ih bs cs h1' h2']
        · have hnac : ¬ a < c := asymm hac
          simp [charsLe, hnac, hac] at h2
      · have hnab : ¬ a < b := asymm hab
        simp [charsLe, hnab, hab] at h1

theorem strLe_total (a b : String) : strLe a b = true ∨ strLe b a = true :=
  charsLe_total a.data b.data

theorem strLe_trans (a b c : String) (h1 : strLe a b = true)
    (h2 : strLe b c = true) : strLe a c = true :=
  charsLe_trans a.data b.data c.data h1 h2

theorem perm_insertStr (a : String) (l : List String) :
    (insertStr a l).Perm (a :: l) := by
  induction l with
  | nil => exact List.Perm.refl _
  | cons b t ih =>
    unfold insertStr
    by_cases h : strLe a b = true
    · rw [if_pos h]
    · rw [if_neg h]
      exact (ih.cons b).trans (List.Perm.swap a b t)

theorem perm_sortStrings (l : List String) : (sortStrings l).Perm l := by
  induction l with
  | nil => exact List.Perm.refl _
  | cons a t ih =>
    exact (perm_insertStr a (sortStrings t)).trans (ih.cons a)

theorem mem_sortStrings (x : String) (l : List String) :
    x ∈ sortStrings l ↔ x ∈ l :=
  (perm_sortStrings l).mem_iff

theorem pairwise_insertStr (a : String) (l : List String)
    (h : l.Pairwise (fun x y => strLe x y = true)) :
    (insertStr a l).Pairwise (fun x y => strLe x y = true) := by
  induction l with
  | nil => simp [insertStr]
  | cons b t ih =>
    rcases List.pairwise_cons.mp h with ⟨hb, ht⟩
    unfold insertStr
    by_cases hab : strLe a b = true
    · rw [if_pos hab]
      refine List.pairwise_cons.mpr ⟨?_, h⟩
      intro x hx
      rcases List.mem_cons.mp hx with rfl | hx
      · exact hab
      · exact strLe_trans a b x hab (hb x hx)
    · rw [if_neg hab]
      have hba : strLe b a = true := by
        rcases strLe_total a b with h' | h'
        · exact absurd h' hab
        · exact h'
      refine List.pairwise_cons.mpr ⟨?_, ih ht⟩
      intro x hx
      rcases List.mem_cons.mp ((perm_insertStr a t).mem_iff.mp hx)
          with rfl | hx'
      · exact hba
      · exact hb x hx'

theorem pairwise_sortStrings (l : List String) :
    (sortStrings l).Pairwise (fun x y => strLe x y = true) := by
  induction l with
  | nil => exact List.Pairwise.nil
  | cons a t ih => exact pairwise_insertStr a (sortStrings t) ih

/-! ## C10: the CLI profile-name choices -/

/-- **C10** (CLI profile-name choices, amended).  The accepted profile names
are exactly `help`, `selftest`, and every name listed by `iterdir()` in an
existing `restaround` search directory — plain files included, not only
subdirectories — with `default` always excluded; the list is sorted and
duplicate-free.  In particular `default` can never be requested as the
top-level profile. -/
theorem c10_profile_choices (fs : FS) :
    (∀ s, s ∈ choices fs ↔
      ((s = "help" ∨ s = "selftest" ∨
        s ∈ (fs.etc.getD []).map (·.name) ∨
        s ∈ (fs.user.getD []).map (·.name)) ∧ s ≠ "default")) ∧
    (choices fs).Pairwise (fun a b => strLe a b = true) ∧
    (choices fs).Nodup := by
  refine ⟨?_, ?_, ?_⟩
  · intro s
    unfold choices
    rw [mem_sortStrings, List.mem_filter, List.mem_dedup]
    simp [or_assoc]
  · exact pairwise_sortStrings _
  · exact (perm_sortStrings _).symm.nodup
      (List.Nodup.filter _ (List.nodup_dedup _))

/-- **C10** (counterexample to the claim as stated): a plain *file* `zzz`
inside `/etc/restaround` is offered as a profile choice even though it is not
a subdirectory, so the choices are not the union of the subdirectory names. -/
theorem c10_profile_choices_counterexample :
    choices ⟨some [⟨"zzz", false, []⟩], none⟩ = ["help", "selftest", "zzz"] ∧
    claimedChoices ⟨some [⟨"zzz", false, []⟩], none⟩ = ["help", "selftest"] ∧
    choices ⟨some [⟨"zzz", false, []⟩], none⟩ ≠
      claimedChoices ⟨some [⟨"zzz", false, []⟩], none⟩ := by
  refine ⟨by decide, by decide, by decide⟩

/-- **C10** witness: the amended theorem applied to a file system with a
`default` directory, a `prof b` directory and a stray file `aaa`. -/
theorem c10_profile_choices_witness :
    ("prof b" ∈ choices ⟨some [⟨"default", true, []⟩, ⟨"prof b", true, []⟩],
        some [⟨"aaa", false, []⟩]⟩ ↔
      ((("prof b" : String) = "help" ∨ ("prof b" : String) = "selftest" ∨
        "prof b" ∈ [("default" : String), "prof b"] ∨
        "prof b" ∈ [("aaa" : String)]) ∧ ("prof b" : String) ≠ "default")) ∧
    ¬ "default" ∈ choices ⟨some [⟨"default", true, []⟩, ⟨"prof b", true, []⟩],
        some [⟨"aaa", false, []⟩]⟩ := by
  have h := c10_profile_choices
    ⟨some [⟨"default", true, []⟩, ⟨"prof b", true, []⟩],
      some [⟨"aaa", false, []⟩]⟩
  constructor
  · exact h.1 "prof b"
  · intro hmem
    have := (h.1 "default").mp hmem
    exact this.2 rfl

/-! ## C8: option tokens first, positionals last -/

theorem flatMap_filter_split {α β : Type} (l : List α) (P : α → Bool)
    (f : α → List β)
    (h : l = l.filter (fun a => !P a) ++ l.filter P) :
    l.flatMap f = (l.filter (fun a => !P a)).flatMap f
      ++ (l.filter P).flatMap f := by
  conv_lhs => rw [h]
  simp

theorem flagArgs_of_not_positional (f : FlagVal)
    (hnp : f.cls.isPositional = false) :
    ∀ tok ∈ flagArgs f, ∃ s, tok = "--" ++ s := by
  intro tok htok
  unfold flagArgs at htok
  rcases hs : f.cls.isScript with _ | _
  · rw [hs] at htok
    simp only [Bool.false_eq_true, if_false, hnp] at htok
    rcases hb : f.cls.isBinary with _ | _
    · rw [hb] at htok
      simp only [Bool.false_eq_true, if_false] at htok
      rcases List.mem_map.mp htok with ⟨v, -, rfl⟩
      exact ⟨f.cls.name ++ "=" ++ v,
        by rw [String.append_assoc, String.append_assoc,
          String.append_assoc]⟩
    · rw [hb] at htok
      simp only [if_true, List.mem_singleton] at htok
      exact ⟨f.cls.name, htok⟩
  · rw [hs] at htok
    simp at htok

theorem flagArgs_of_positional (f : FlagVal)
    (hp : f.cls.isPositional = true) (hs : f.cls.isScript = false) :
    flagArgs f = f.values := by
  unfold flagArgs
  rw [hs, hp]
  simp

/-- **C8** (positional ordering).  For every subcommand in the catalog and
every profile state, the rendered parameter list is the concatenation of the
tokens of the non-positional accepted kinds — each of which is an
option-like `--…` token — in accepted-kind declaration order, followed by the
tokens of the positional kinds, which are the flags' values verbatim.  This
holds for any profile state, hence independently of the order in which
profile files were scanned. -/
theorem c8_positional_ordering (c : Cmd) (hc : c ∈ commandList)
    (p : Profile) :
    (resticParameters c.name p =
      ((commandAccepts c.name).filter (fun cls => !cls.isPositional)).flatMap
          (fun cls => (findFlags p cls).flatMap flagArgs)
        ++ ((commandAccepts c.name).filter (fun cls => cls.isPositional)).flatMap
          (fun cls => (findFlags p cls).flatMap flagArgs)) ∧
    (∀ tok ∈ ((commandAccepts c.name).filter
        (fun cls => !cls.isPositional)).flatMap
          (fun cls => (findFlags p cls).flatMap flagArgs),
      ∃ s, tok = "--" ++ s) ∧
    (∀ cls ∈ (commandAccepts c.name).filter (fun cls => cls.isPositional),
      ∀ f ∈ findFlags p cls, flagArgs f = f.values) := by
  have hsplit : commandAccepts c.name =
      (commandAccepts c.name).filter (fun cls => !cls.isPositional)
        ++ (commandAccepts c.name).filter (fun cls => cls.isPositional) := by
    fin_cases hc <;> rfl
  have hposNotScript : ∀ cls ∈ commandAccepts c.name,
      cls.isPositional = true → cls.isScript = false := by
    fin_cases hc <;> decide
  refine ⟨?_, ?_, ?_⟩
  · unfold resticParameters sortedFlags
    rw [List.flatMap_assoc]
    rw [flatMap_filter_split (commandAccepts c.name)
      (fun cls => cls.isPositional)
      (fun cls => (findFlags p cls).flatMap flagArgs) hsplit]
  · intro tok htok
    rcases List.mem_flatMap.mp htok with ⟨cls, hcls, htok'⟩
    rcases List.mem_flatMap.mp htok' with ⟨f, hf, htok''⟩
    have hnp : cls.isPositional = false := by
      have := (List.mem_filter.mp hcls).2
      simpa using this
    have hfcls : f.cls = cls := by
      have := (List.mem_filter.mp hf).2
      simpa using this
    exact flagArgs_of_not_positional f (by rw [hfcls]; exact hnp) tok htok''
  · intro cls hcls f hf
    have hpos : cls.isPositional = true := (List.mem_filter.mp hcls).2
    have hfcls : f.cls = cls := by
      have := (List.mem_filter.mp hf).2
      simpa using this
    have hscript : cls.isScript = false :=
      hposNotScript cls (List.mem_filter.mp hcls).1 hpos
    exact flagArgs_of_positional f (by rw [hfcls]; exact hpos)
      (by rw [hfcls]; exact hscript)

/-- **C8** witness: the theorem applied to the `ls` command and a profile
holding a `tag` flag and a positional `dir` flag (inserted in the opposite
scan order): the `--tag` tokens come first, the positional values last. -/
theorem c8_positional_ordering_witness :
    resticParameters "ls"
        ⟨[("dir", ⟨posFlag "dir", none, ["/d1"], false⟩),
          ("tag", ⟨listFlag "tag", none, ["a", "b"], false⟩)]⟩ =
      ["--tag=a", "--tag=b", "/d1"] := by
  have h := c8_positional_ordering
    { name := "ls", specificFlags :=
      [ listFlag "host", binFlag "long",
        { plainFlag "path" with multi := true }, binFlag "recursive",
        listFlag "tag", singlePosFlag "singlesnapshotid", posFlag "dir" ] }
    (by decide)
    ⟨[("dir", ⟨posFlag "dir", none, ["/d1"], false⟩),
      ("tag", ⟨listFlag "tag", none, ["a", "b"], false⟩)]⟩
  rw [h.1]
  decide

/-! ## Shape lemmas for the entry parser and `scanItem` -/

theorem parseEntryName_plain (path fname : String) (vals content : List String)
    (hnotcmd : commandNames.contains fname = false) (hno : fname ≠ "no") :
    parseEntryName path ⟨fname :: vals, content⟩ =
      Except.ok { path := path, command := none, remove := false,
                  flagName := fname, values := vals, content := content } := by
  have hnm := commandNames_not_contains fname hnotcmd
  match vals with
  | [] =>
    unfold parseEntryName
    rw [findScope_single]
    simp [hno]
  | v :: vs =>
    unfold parseEntryName
    rw [findScope_of_not_mem commandList fname v vs hnm]
    simp [hno]

theorem parseEntryName_removal (path F : String) (vals content : List String)
    : parseEntryName path ⟨"no" :: F :: vals, content⟩ =
      Except.ok { path := path, command := none, remove := true,
                  flagName := F, values := vals, content := content } := by
  have hnm := commandNames_not_contains "no" (by decide)
  unfold parseEntryName
  rw [findScope_of_not_mem commandList "no" F vals hnm]
  simp

theorem parseEntryName_scoped (path c F : String) (vals content : List String)
    (hc : commandNames.contains c = true)
    (hF : flagNames.contains F = true) :
    parseEntryName path ⟨c :: F :: vals, content⟩ =
      Except.ok { path := path, command := some c, remove := false,
                  flagName := F, values := vals, content := content } := by
  have hmem := (commandNames_contains_iff c).mp hc
  have hFno : F ≠ "no" := by
    intro h
    rw [h] at hF
    have : flagNames.contains "no" = false := by decide
    rw [hF] at this
    cases this
  unfold parseEntryName
  rw [findScope_found commandList c F vals hmem hF]
  simp [hFno]

theorem parseEntryName_scoped_removal (path c F : String)
    (vals content : List String)
    (hc : commandNames.contains c = true)
    (hF : flagNames.contains F = true) :
    parseEntryName path ⟨c :: "no" :: F :: vals, content⟩ =
      Except.ok { path := path, command := some c, remove := true,
                  flagName := F, values := vals, content := content } := by
  have hmem := (commandNames_contains_iff c).mp hc
  unfold parseEntryName
  rw [findScope_no_second commandList c F vals hF hmem]
  simp

/-- A removal file `no_<F>` (any content) scans to the bare removal flag of
`F`'s class — note the flag's `command` stays `None` even for a scoped
removal. -/
theorem scanItem_removal (cmd path F : String) (content : List String)
    (cls : FlagClass) (hfind : findFlagClass F = some cls) :
    scanItem cmd path ⟨["no", F], content⟩ =
      Except.ok (some { cls := cls, command := none, values := [],
                        remove := true }) := by
  unfold scanItem mkProfileEntry
  rw [parseEntryName_removal]
  simp [entrySizeCheck, entryFlag, hfind, flagInit]

/-- A scoped removal file `<c>_no_<F>` scans to the bare removal flag when
`c` is the selected command. -/
theorem scanItem_scoped_removal (path c F : String) (content : List String)
    (cls : FlagClass) (hc : commandNames.contains c = true)
    (hF : flagNames.contains F = true)
    (hfind : findFlagClass F = some cls) :
    scanItem c path ⟨[c, "no", F], content⟩ =
      Except.ok (some { cls := cls, command := none, values := [],
                        remove := true }) := by
  unfold scanItem mkProfileEntry
  rw [parseEntryName_scoped_removal path c F [] content hc hF]
  simp [entrySizeCheck, entryFlag, hfind, flagInit]

/-- An unscoped file with inline values and empty content scans to a fresh
flag holding exactly those values (single flags need at most one value;
multi flags concatenate onto the empty list). -/
theorem scanItem_plain_inline (cmd path fname : String) (vals : List String)
    (cls : FlagClass)
    (hnotcmd : commandNames.contains fname = false) (hno : fname ≠ "no")
    (hfind : findFlagClass fname = some cls) (hvals : vals ≠ [])
    (hbin : cls.isBinary = false) (hres : cls.resolveContent = true)
    (hm : cls.multi = true ∨ vals.length ≤ 1) :
    scanItem cmd path ⟨fname :: vals, []⟩ =
      Except.ok (some { cls := cls, command := none, values := vals,
                        remove := false }) := by
  unfold scanItem mkProfileEntry
  rw [parseEntryName_plain path fname vals [] hnotcmd hno]
  have hinc : incomingValues { cls := cls, command := none }
      { path := path, command := none, remove := false, flagName := fname,
        values := vals, content := [] } = vals := by
    simp [incomingValues, hres, hvals]
  simp only [entrySizeCheck, entryFlag, hfind, flagInit, addValues]
  rcases hmv : cls.multi with _ | _
  · rcases hm with hm | hm
    · rw [hmv] at hm
      cases hm
    · have hlen : ¬ 1 < vals.length := by omega
      simp [hbin, hmv, hinc, hlen, hfind]
  · simp [hbin, hmv, hinc, hfind]

/-- A command-scoped file with inline values and empty content scans (under
that command) to a fresh flag tagged with the command. -/
theorem scanItem_scoped_inline (path c fname : String) (vals : List String)
    (cls : FlagClass)
    (hc : commandNames.contains c = true)
    (hF : flagNames.contains fname = true)
    (hfind : findFlagClass fname = some cls) (hvals : vals ≠ [])
    (hbin : cls.isBinary = false) (hres : cls.resolveContent = true)
    (hm : cls.multi = true ∨ vals.length ≤ 1) :
    scanItem c path ⟨c :: fname :: vals, []⟩ =
      Except.ok (some { cls := cls, command := some c, values := vals,
                        remove := false }) := by
  unfold scanItem mkProfileEntry
  rw [parseEntryName_scoped path c fname vals [] hc hF]
  have hinc : incomingValues { cls := cls, command := some c }
      { path := path, command := some c, remove := false, flagName := fname,
        values := vals, content := [] } = vals := by
    simp [incomingValues, hres, hvals]
  simp only [entrySizeCheck, entryFlag, hfind, flagInit, addValues]
  rcases hmv : cls.multi with _ | _
  · rcases hm with hm | hm
    · rw [hmv] at hm
      cases hm
    · have hlen : ¬ 1 < vals.length := by omega
      simp [hbin, hmv, hinc, hlen, hfind]
  · simp [hbin, hmv, hinc, hfind]

/-- A command-scoped file is dropped entirely when resolving a different
command. -/
theorem scanItem_scoped_other (cmd path c fname : String)
    (vals : List String) (hc : commandNames.contains c = true)
    (hF : flagNames.contains fname = true) (hne : c ≠ cmd) :
    scanItem cmd path ⟨c :: fname :: vals, []⟩ = Except.ok none := by
  unfold scanItem mkProfileEntry
  rw [parseEntryName_scoped path c fname vals [] hc hF]
  simp [entrySizeCheck, entryFlag, hne]

/-- An unscoped binary-flag file (no inline values) scans to the flag with no
values. -/
theorem scanItem_binary (cmd path fname : String) (content : List String)
    (cls : FlagClass)
    (hnotcmd : commandNames.contains fname = false) (hno : fname ≠ "no")
    (hfind : findFlagClass fname = some cls) (hbin : cls.isBinary = true) :
    scanItem cmd path ⟨[fname], content⟩ =
      Except.ok (some { cls := cls, command := none, values := [],
                        remove := false }) := by
  unfold scanItem mkProfileEntry
  rw [parseEntryName_plain path fname [] content hnotcmd hno]
  simp [entrySizeCheck, entryFlag, hfind, flagInit, addValues, hbin]

/-- An unscoped content-valued file (no inline values, `resolve_content`
class) scans to a flag holding the parsed file lines. -/
theorem scanItem_plain_content (cmd path fname : String)
    (content : List String) (cls : FlagClass)
    (hnotcmd : commandNames.contains fname = false) (hno : fname ≠ "no")
    (hfind : findFlagClass fname = some cls)
    (hbin : cls.isBinary = false) (hres : cls.resolveContent = true)
    (hm : cls.multi = true ∨ (fileLines content).length ≤ 1) :
    scanItem cmd path ⟨[fname], content⟩ =
      Except.ok (some { cls := cls, command := none,
                        values := fileLines content, remove := false }) := by
  unfold scanItem mkProfileEntry
  rw [parseEntryName_plain path fname [] content hnotcmd hno]
  have hinc : incomingValues { cls := cls, command := none }
      { path := path, command := none, remove := false, flagName := fname,
        values := [], content := content } = fileLines content := by
    simp [incomingValues, hres]
  simp only [entrySizeCheck, entryFlag, hfind, flagInit, addValues]
  rcases hmv : cls.multi with _ | _
  · rcases hm with hm | hm
    · rw [hmv] at hm
      cases hm
    · have hlen : ¬ 1 < (fileLines content).length := by omega
      simp [hbin, hmv, hinc, hlen, hfind]
  · simp [hbin, hmv, hinc, hfind]

/-! ## Composition lemmas for `scanDir`, `scan` and the flag sort -/

theorem scanDir_nil (cmd : String) (accepts : List FlagClass)
    (dirPath : String) : scanDir cmd accepts dirPath [] = Except.ok [] := rfl

theorem scanDir_cons_some (cmd : String) (accepts : List FlagClass)
    (dirPath : String) (it : FileItem) (rest : List FileItem) (f : FlagVal)
    (tail : List FlagVal)
    (hit : scanItem cmd (dirPath ++ "/" ++ it.fname) it = Except.ok (some f))
    (hacc : accepts.contains f.cls = true)
    (htail : scanDir cmd accepts dirPath rest = Except.ok tail) :
    scanDir cmd accepts dirPath (it :: rest) = Except.ok (f :: tail) := by
  have hacc' : f.cls ∈ accepts := by simpa using hacc
  unfold scanDir
  rw [hit, htail]
  simp [hacc']

theorem scanDir_cons_skip (cmd : String) (accepts : List FlagClass)
    (dirPath : String) (it : FileItem) (rest : List FileItem) (f : FlagVal)
    (tail : List FlagVal)
    (hit : scanItem cmd (dirPath ++ "/" ++ it.fname) it = Except.ok (some f))
    (hacc : accepts.contains f.cls = false)
    (htail : scanDir cmd accepts dirPath rest = Except.ok tail) :
    scanDir cmd accepts dirPath (it :: rest) = Except.ok tail := by
  have hacc' : f.cls ∉ accepts := by simpa using hacc
  unfold scanDir
  rw [hit, htail]
  simp [hacc']

theorem scanDir_cons_none (cmd : String) (accepts : List FlagClass)
    (dirPath : String) (it : FileItem) (rest : List FileItem)
    (tail : List FlagVal)
    (hit : scanItem cmd (dirPath ++ "/" ++ it.fname) it = Except.ok none)
    (htail : scanDir cmd accepts dirPath rest = Except.ok tail) :
    scanDir cmd accepts dirPath (it :: rest) = Except.ok tail := by
  unfold scanDir
  rw [hit, htail]

theorem scanPath_of_dir (cmd : String) (accepts : List FlagClass)
    (base : String) (root : Option (List RootEntry)) (pn : String)
    (files : List FileItem) (l : List FlagVal)
    (hdir : lookupProfileDir root pn = some files)
    (hscan : scanDir cmd accepts (base ++ "/restaround/" ++ pn) files =
      Except.ok l) :
    scanPath cmd accepts base root pn = Except.ok l := by
  unfold scanPath
  rw [hdir]
  exact hscan

theorem scanPath_of_missing (cmd : String) (accepts : List FlagClass)
    (base : String) (root : Option (List RootEntry)) (pn : String)
    (hdir : lookupProfileDir root pn = none) :
    scanPath cmd accepts base root pn = Except.ok [] := by
  unfold scanPath
  rw [hdir]

theorem scan_eval (fs : FS) (cmd : String) (pn : String)
    (l1 l2 : List FlagVal)
    (h1 : scanPath cmd (commandAccepts cmd) "/etc" fs.etc pn = Except.ok l1)
    (h2 : scanPath cmd (commandAccepts cmd) "~/.config" fs.user pn =
      Except.ok l2) :
    scan fs cmd pn = Except.ok (l1 ++ l2) := by
  unfold scan
  rw [h1, h2]

theorem lookupProfileDir_single (pn : String) (files : List FileItem) :
    lookupProfileDir (some [⟨pn, true, files⟩]) pn = some files := by
  simp [lookupProfileDir]

theorem lookupProfileDir_none_root (pn : String) :
    lookupProfileDir none pn = none := rfl

theorem strLe_empty_left (x : String) : strLe "" x = true := rfl

theorem strLe_empty_right (c : String) (h : c ≠ "") : strLe c "" = false := by
  unfold strLe
  rcases hd : c.data with _ | ⟨a, as⟩
  · exact absurd (String.ext hd) h
  · rfl

theorem perm_insertByKey (key : FlagVal → String) (a : FlagVal)
    (l : List FlagVal) : (insertByKey key a l).Perm (a :: l) := by
  induction l with
  | nil => exact List.Perm.refl _
  | cons b t ih =>
    unfold insertByKey
    by_cases h : strLe (key a) (key b) = true
    · rw [if_pos h]
    · rw [if_neg h]
      exact (ih.cons b).trans (List.Perm.swap a b t)

theorem perm_sortByKey (key : FlagVal → String) (l : List FlagVal) :
    (sortByKey key l).Perm l := by
  induction l with
  | nil => exact List.Perm.refl _
  | cons a t ih =>
    exact (perm_insertByKey key a (sortByKey key t)).trans (ih.cons a)

theorem mem_sortByKey (key : FlagVal → String) (f : FlagVal)
    (l : List FlagVal) : f ∈ sortByKey key l ↔ f ∈ l :=
  (perm_sortByKey key l).mem_iff

/-! ## Key-absence and well-formedness of the flags dict -/

/-- Absence of a key from the flags dict. -/
theorem dictGet_eq_none_iff (m : List (String × FlagVal)) (k : String) :
    dictGet m k = none ↔ ∀ pr ∈ m, pr.1 ≠ k := by
  unfold dictGet
  rw [Option.map_eq_none', List.find?_eq_none]
  constructor
  · intro h pr hpr
    have := h pr hpr
    simpa using this
  · intro h pr hpr
    have := h pr hpr
    simpa using this

theorem dictErase_absent (m : List (String × FlagVal)) (k : String) :
    dictGet (dictErase m k) k = none := by
  rw [dictGet_eq_none_iff]
  intro pr hpr
  have := (List.mem_filter.mp hpr).2
  simpa using this

theorem dictErase_preserves_absent (m : List (String × FlagVal))
    (k k' : String) (h : dictGet m k = none) :
    dictGet (dictErase m k') k = none := by
  rw [dictGet_eq_none_iff] at h ⊢
  intro pr hpr
  exact h pr (List.mem_filter.mp hpr).1

theorem dictSet_preserves_absent (m : List (String × FlagVal))
    (k k' : String) (v : FlagVal) (h : dictGet m k = none) (hne : k' ≠ k) :
    dictGet (dictSet m k' v) k = none := by
  rw [dictGet_eq_none_iff] at h ⊢
  intro pr hpr
  unfold dictSet at hpr
  by_cases hany : m.any (fun p => p.1 == k')
  · rw [if_pos hany] at hpr
    rcases List.mem_map.mp hpr with ⟨pr0, hpr0, heq⟩
    by_cases hk : pr0.1 == k'
    · rw [if_pos hk] at heq
      rw [← heq]
      exact hne
    · rw [if_neg hk] at heq
      rw [← heq]
      exact h pr0 hpr0
  · rw [if_neg hany] at hpr
    rcases List.mem_append.mp hpr with hpr' | hpr'
    · exact h pr hpr'
    · rcases List.mem_singleton.mp hpr' with rfl
      exact hne

theorem dictApply_preserves_absent (p : Profile) (f : FlagVal) (k : String)
    (h : dictGet p.flags k = none) (hne : f.cls.name ≠ k) :
    dictGet (dictApply p f).flags k = none := by
  simp only [dictApply]
  rcases hg : dictGet p.flags f.cls.name with _ | old
  · simp only [hg]
    exact dictSet_preserves_absent p.flags k f.cls.name f h hne
  · simp only [hg]
    by_cases hm : f.cls.multi = true
    · simp only [hm, if_true]
      exact dictSet_preserves_absent p.flags k f.cls.name (iaddFlag old f)
        h hne
    · simp only [hm, if_false]
      exact dictSet_preserves_absent p.flags k f.cls.name f h hne

/-- The flags dict is well keyed: every stored flag sits under its own
`restic_name`. -/
def WFP (p : Profile) : Prop := ∀ pr ∈ p.flags, pr.2.cls.name = pr.1

theorem WFP_empty : WFP ⟨[]⟩ := by
  intro pr hpr
  cases hpr

theorem WFP_dictApply (p : Profile) (f : FlagVal) (h : WFP p) :
    WFP (dictApply p f) := by
  have hset : ∀ v : FlagVal, v.cls.name = f.cls.name →
      WFP ⟨dictSet p.flags f.cls.name v⟩ := by
    intro v hv pr hpr
    unfold dictSet at hpr
    by_cases hany : p.flags.any (fun q => q.1 == f.cls.name)
    · rw [if_pos hany] at hpr
      rcases List.mem_map.mp hpr with ⟨pr0, hpr0, heq⟩
      by_cases hk : pr0.1 == f.cls.name
      · rw [if_pos hk] at heq
        rw [← heq]
        exact hv
      · rw [if_neg hk] at heq
        rw [← heq]
        exact h pr0 hpr0
    · rw [if_neg hany] at hpr
      rcases List.mem_append.mp hpr with hpr' | hpr'
      · exact h pr hpr'
      · rcases List.mem_singleton.mp hpr' with rfl
        exact hv
  simp only [dictApply]
  rcases hg : dictGet p.flags f.cls.name with _ | old
  · simp only [hg]
    exact hset f rfl
  · have hold : old.cls.name = f.cls.name := by
      unfold dictGet at hg
      rcases hf : p.flags.find? (fun q => q.1 == f.cls.name) with _ | pr0
      · rw [hf] at hg
        cases hg
      · rw [hf] at hg
        have hkey : pr0.1 = f.cls.name := by
          have := List.find?_some hf
          simpa using this
        have hmem := List.mem_of_find?_eq_some hf
        have := h pr0 hmem
        cases hg
        rw [this, hkey]
    simp only [hg]
    by_cases hm : f.cls.multi = true
    · simp only [hm, if_true]
      exact hset (iaddFlag old f) (by simpa [iaddFlag] using hold)
    · simp only [hm, if_false]
      exact hset f rfl

theorem WFP_dictErase (p : Profile) (k : String) (h : WFP p) :
    WFP ⟨dictErase p.flags k⟩ := by
  intro pr hpr
  exact h pr (List.mem_filter.mp hpr).1

theorem removeFrom_ok (p : Profile) (f : FlagVal) (res : Profile)
    (h : removeFrom p f = Except.ok res) :
    f.cls.isInherit = false ∧ res = ⟨dictErase p.flags f.cls.name⟩ := by
  unfold removeFrom at h
  by_cases hi : f.cls.isInherit = true
  · rw [if_pos hi] at h
    cases h
  · rw [if_neg hi] at h
    cases h
    exact ⟨by simpa using hi, rfl⟩

theorem removeAll_preserves_absent (k : String) :
    ∀ (l : List FlagVal) (p res : Profile),
    dictGet p.flags k = none → removeAll l p = Except.ok res →
    dictGet res.flags k = none := by
  intro l
  induction l with
  | nil =>
    intro p res h hok
    cases hok
    exact h
  | cons f rest ih =>
    intro p res h hok
    unfold removeAll at hok
    rcases hr : removeFrom p f with _ | p1
    · rw [hr] at hok
      cases hok
    · rw [hr] at hok
      rcases removeFrom_ok p f p1 hr with ⟨-, rfl⟩
      exact ih _ res (dictErase_preserves_absent p.flags k f.cls.name h) hok

theorem removeAll_removes (k : String) :
    ∀ (l : List FlagVal) (p res : Profile),
    (∃ f ∈ l, f.cls.name = k) → removeAll l p = Except.ok res →
    dictGet res.flags k = none := by
  intro l
  induction l with
  | nil =>
    intro p res hex hok
    rcases hex with ⟨f, hf, -⟩
    cases hf
  | cons f rest ih =>
    intro p res hex hok
    unfold removeAll at hok
    rcases hr : removeFrom p f with _ | p1
    · rw [hr] at hok
      cases hok
    · rw [hr] at hok
      rcases removeFrom_ok p f p1 hr with ⟨-, rfl⟩
      rcases hex with ⟨g, hg, hgk⟩
      rcases List.mem_cons.mp hg with rfl | hg'
      · exact removeAll_preserves_absent k rest _ res
          (by rw [hgk]; exact dictErase_absent p.flags k) hok
      · exact ih _ res ⟨g, hg', hgk⟩ hok

theorem WFP_removeAll :
    ∀ (l : List FlagVal) (p res : Profile),
    WFP p → removeAll l p = Except.ok res → WFP res := by
  intro l
  induction l with
  | nil =>
    intro p res h hok
    cases hok
    exact h
  | cons f rest ih =>
    intro p res h hok
    unfold removeAll at hok
    rcases hr : removeFrom p f with _ | p1
    · rw [hr] at hok
      cases hok
    · rw [hr] at hok
      rcases removeFrom_ok p f p1 hr with ⟨-, rfl⟩
      exact ih _ res (WFP_dictErase p f.cls.name h) hok

/-! ## Well-formedness through the resolver -/

theorem WFP_inheritSeq (recur : String → Profile → Except Err Profile)
    (hrec : ∀ v p res, WFP p → recur v p = Except.ok res → WFP res) :
    ∀ (vs : List String) (p res : Profile), WFP p →
    inheritSeq recur vs p = Except.ok res → WFP res := by
  intro vs
  induction vs with
  | nil =>
    intro p res h hok
    cases hok
    exact h
  | cons v rest ih =>
    intro p res h hok
    unfold inheritSeq at hok
    rcases hr : recur v p with _ | p1
    · rw [hr] at hok
      cases hok
    · rw [hr] at hok
      exact ih p1 res (hrec v p p1 h hr) hok

theorem WFP_applyOne (recur : String → Profile → Except Err Profile)
    (hrec : ∀ v p res, WFP p → recur v p = Except.ok res → WFP res)
    (f : FlagVal) (p res : Profile) (h : WFP p)
    (hok : applyOne recur f p = Except.ok res) : WFP res := by
  unfold applyOne at hok
  by_cases hi : f.cls.isInherit = true
  · rw [if_pos hi] at hok
    exact WFP_inheritSeq recur hrec f.values p res h hok
  · rw [if_neg hi] at hok
    cases hok
    exact WFP_dictApply p f h

theorem WFP_applyAll (recur : String → Profile → Except Err Profile)
    (hrec : ∀ v p res, WFP p → recur v p = Except.ok res → WFP res) :
    ∀ (l : List FlagVal) (p res : Profile), WFP p →
    applyAll recur l p = Except.ok res → WFP res := by
  intro l
  induction l with
  | nil =>
    intro p res h hok
    cases hok
    exact h
  | cons f rest ih =>
    intro p res h hok
    unfold applyAll at hok
    rcases hr : applyOne recur f p with _ | p1
    · rw [hr] at hok
      cases hok
    · rw [hr] at hok
      exact ih _ res (WFP_applyOne recur hrec f p p1 h hr) hok

theorem WFP_inheritProfile (fs : FS) (cmd : String) :
    ∀ (fuel : Nat) (pn : String) (p res : Profile), WFP p →
    inheritProfile fs cmd fuel pn p = Except.ok res → WFP res := by
  intro fuel
  induction fuel with
  | zero =>
    intro pn p res h hok
    cases hok
  | succ fuel ih =>
    intro pn p res h hok
    unfold inheritProfile at hok
    rcases hs : scan fs cmd pn with _ | scanned
    · rw [hs] at hok
      cases hok
    · rw [hs] at hok
      dsimp only [] at hok
      rcases h1 : applyAll (inheritProfile fs cmd fuel)
          ((sortByKey commandKey scanned).filter (fun x => x.cls.isInherit))
          p with _ | p1
      · rw [h1] at hok
        cases hok
      · rw [h1] at hok
        dsimp only [] at hok
        rcases h2 : applyAll (inheritProfile fs cmd fuel)
            (((sortByKey commandKey scanned).filter
              (fun x => ¬ x.cls.isInherit)).filter (fun x => ¬ x.remove))
            p1 with _ | p2
        · rw [h2] at hok
          cases hok
        · rw [h2] at hok
          dsimp only [] at hok
          have hw1 : WFP p1 := WFP_applyAll _ ih _ p p1 h h1
          have hw2 : WFP p2 := WFP_applyAll _ ih _ p1 p2 hw1 h2
          exact WFP_removeAll _ p2 res hw2 hok

theorem WFP_useOptionsGo (recur : String → Profile → Except Err Profile)
    (hrec : ∀ v p res, WFP p → recur v p = Except.ok res → WFP res)
    (o : Options) :
    ∀ (accepts : List FlagClass) (p res : Profile), WFP p →
    useOptionsGo recur o accepts p = Except.ok res → WFP res := by
  intro accepts
  induction accepts with
  | nil =>
    intro p res h hok
    cases hok
    exact h
  | cons cls rest ih =>
    intro p res h hok
    unfold useOptionsGo at hok
    rcases ho : optValues o cls with _ | vals
    · rw [ho] at hok
      exact ih p res h hok
    · rw [ho] at hok
      dsimp only [] at hok
      rcases hr : applyOne recur { cls := cls, values := vals } p with _ | p1
      · rw [hr] at hok
        cases hok
      · rw [hr] at hok
        dsimp only [] at hok
        exact ih p1 res (WFP_applyOne recur hrec _ p p1 h hr) hok

theorem WFP_profileInit (fs : FS) (cmd : String) (fuel : Nat) (o : Options)
    (res : Profile) (hok : profileInit fs cmd fuel o = Except.ok res) :
    WFP res := by
  unfold profileInit at hok
  rcases h1 : inheritProfile fs cmd fuel "default" ⟨[]⟩ with _ | p1
  · rw [h1] at hok
    cases hok
  · rw [h1] at hok
    dsimp only [] at hok
    rcases h2 : inheritProfile fs cmd fuel o.profile p1 with _ | p2
    · rw [h2] at hok
      cases hok
    · rw [h2] at hok
      dsimp only [] at hok
      have hw1 := WFP_inheritProfile fs cmd fuel "default" ⟨[]⟩ p1
        WFP_empty h1
      have hw2 := WFP_inheritProfile fs cmd fuel o.profile p1 p2 hw1 h2
      exact WFP_useOptionsGo _ (fun v p res h hr =>
        WFP_inheritProfile fs cmd fuel v p res h hr) o _ p2 res hw2 hok

/-! ## Absence through `use_options` -/

theorem applyOne_not_inherit_ok (recur : String → Profile → Except Err Profile)
    (f : FlagVal) (p res : Profile) (hi : f.cls.isInherit = false)
    (hok : applyOne recur f p = Except.ok res) : res = dictApply p f := by
  unfold applyOne at hok
  rw [hi] at hok
  simp at hok
  exact hok.symm

theorem useOptionsGo_preserves_absent (k : String)
    (recur : String → Profile → Except Err Profile) (o : Options)
    (hopts : ∀ pr ∈ o.flagOpts, pr.1.name ≠ k ∧ pr.1.isInherit = false) :
    ∀ (accepts : List FlagClass) (p res : Profile),
    dictGet p.flags k = none →
    useOptionsGo recur o accepts p = Except.ok res →
    dictGet res.flags k = none := by
  intro accepts
  induction accepts with
  | nil =>
    intro p res h hok
    cases hok
    exact h
  | cons cls rest ih =>
    intro p res h hok
    unfold useOptionsGo at hok
    rcases ho : optValues o cls with _ | vals
    · rw [ho] at hok
      exact ih p res h hok
    · rw [ho] at hok
      dsimp only [] at hok
      have hcls : cls.name ≠ k ∧ cls.isInherit = false := by
        unfold optValues at ho
        rcases hf : o.flagOpts.find? (fun pr => pr.1 == cls) with _ | pr0
        · rw [hf] at ho
          cases ho
        · have hq := List.find?_some hf
          have hmem := List.mem_of_find?_eq_some hf
          have : pr0.1 = cls := by simpa using hq
          rw [← this]
          exact hopts pr0 hmem
      rcases hr : applyOne recur { cls := cls, values := vals } p with _ | p1
      · rw [hr] at hok
        cases hok
      · rw [hr] at hok
        dsimp only [] at hok
        have hres := applyOne_not_inherit_ok recur _ p p1 hcls.2 hr
        subst hres
        exact ih _ res (dictApply_preserves_absent p _ k h hcls.1) hok

/-! ## Membership in scan results -/

theorem scanDir_mem (cmd : String) (accepts : List FlagClass)
    (dirPath : String) (f : FlagVal) :
    ∀ (files : List FileItem) (l : List FlagVal),
    scanDir cmd accepts dirPath files = Except.ok l →
    (∃ it ∈ files,
      scanItem cmd (dirPath ++ "/" ++ it.fname) it = Except.ok (some f)) →
    accepts.contains f.cls = true → f ∈ l := by
  intro files
  induction files with
  | nil =>
    intro l hok hex hacc
    rcases hex with ⟨it, hit, -⟩
    cases hit
  | cons it0 rest ih =>
    intro l hok hex hacc
    unfold scanDir at hok
    rcases h0 : scanItem cmd (dirPath ++ "/" ++ it0.fname) it0 with _ | fl0
    · rw [h0] at hok
      cases hok
    · rw [h0] at hok
      rcases ht : scanDir cmd accepts dirPath rest with _ | tail
      · rw [ht] at hok
        cases hok
      · rw [ht] at hok
        rcases hex with ⟨it, hit, hscan⟩
        rcases List.mem_cons.mp hit with rfl | hit'
        · rw [h0] at hscan
          cases hscan
          replace hok : (if accepts.contains f.cls = true then
              Except.ok (f :: tail) else Except.ok tail) =
              Except.ok l := hok
          rw [if_pos hacc] at hok
          cases hok
          exact List.mem_cons_self f tail
        · have hftail : f ∈ tail := ih tail ht ⟨it, hit', hscan⟩ hacc
          rcases fl0 with _ | f0
          · replace hok : (Except.ok tail : Except Err (List FlagVal)) =
              Except.ok l := hok
            cases hok
            exact hftail
          · replace hok : (if accepts.contains f0.cls = true then
              Except.ok (f0 :: tail) else Except.ok tail) =
              Except.ok l := hok
            by_cases hacc0 : accepts.contains f0.cls = true
            · rw [if_pos hacc0] at hok
              cases hok
              exact List.mem_cons_of_mem f0 hftail
            · rw [if_neg hacc0] at hok
              cases hok
              exact hftail

theorem scan_mem (fs : FS) (cmd : String) (pn : String) (f : FlagVal)
    (l : List FlagVal) (hok : scan fs cmd pn = Except.ok l)
    (hacc : (commandAccepts cmd).contains f.cls = true)
    (hex :
      (∃ files, lookupProfileDir fs.etc pn = some files ∧ ∃ it ∈ files,
        scanItem cmd ("/etc/restaround/" ++ pn ++ "/" ++ it.fname) it =
          Except.ok (some f)) ∨
      (∃ files, lookupProfileDir fs.user pn = some files ∧ ∃ it ∈ files,
        scanItem cmd ("~/.config/restaround/" ++ pn ++ "/" ++ it.fname) it =
          Except.ok (some f))) :
    f ∈ l := by
  unfold scan at hok
  rcases h1 : scanPath cmd (commandAccepts cmd) "/etc" fs.etc pn with _ | l1
  · rw [h1] at hok
    cases hok
  · rw [h1] at hok
    rcases h2 : scanPath cmd (commandAccepts cmd) "~/.config" fs.user pn
        with _ | l2
    · rw [h2] at hok
      cases hok
    · rw [h2] at hok
      cases hok
      rcases hex with ⟨files, hdir, hex'⟩ | ⟨files, hdir, hex'⟩
      · unfold scanPath at h1
        rw [hdir] at h1
        exact List.mem_append_left l2
          (scanDir_mem cmd _ _ f files l1 h1 hex' hacc)
      · unfold scanPath at h2
        rw [hdir] at h2
        exact List.mem_append_right l1
          (scanDir_mem cmd _ _ f files l2 h2 hex' hacc)

/-! ## Inversion of `Profile.inherit` -/

theorem inheritProfile_ok_inversion (fs : FS) (cmd : String) (fuel : Nat)
    (pn : String) (p res : Profile)
    (hok : inheritProfile fs cmd (fuel + 1) pn p = Except.ok res) :
    ∃ scanned p1 p2, scan fs cmd pn = Except.ok scanned ∧
      applyAll (inheritProfile fs cmd fuel)
        ((sortByKey commandKey scanned).filter (fun x => x.cls.isInherit))
        p = Except.ok p1 ∧
      applyAll (inheritProfile fs cmd fuel)
        (((sortByKey commandKey scanned).filter
          (fun x => ¬ x.cls.isInherit)).filter (fun x => ¬ x.remove))
        p1 = Except.ok p2 ∧
      removeAll (((sortByKey commandKey scanned).filter
          (fun x => ¬ x.cls.isInherit)).filter (fun x => x.remove))
        p2 = Except.ok res := by
  unfold inheritProfile at hok
  rcases hs : scan fs cmd pn with _ | scanned
  · rw [hs] at hok
    cases hok
  · rw [hs] at hok
    simp only at hok
    rcases h1 : applyAll (inheritProfile fs cmd fuel)
        ((sortByKey commandKey scanned).filter (fun x => x.cls.isInherit))
        p with _ | p1
    · rw [h1] at hok
      cases hok
    · rw [h1] at hok
      dsimp only [] at hok
      rcases h2 : applyAll (inheritProfile fs cmd fuel)
          (((sortByKey commandKey scanned).filter
            (fun x => ¬ x.cls.isInherit)).filter (fun x => ¬ x.remove))
          p1 with _ | p2
      · rw [h2] at hok
        cases hok
      · rw [h2] at hok
        dsimp only [] at hok
        exact ⟨scanned, p1, p2, rfl, h1, h2, hok⟩

/-! ## C3: the removal law -/

/-- **C3** (removal law).  If profile `P` (the requested profile) contains a
removal entry `no_<F>` applicable to the selected subcommand (here an
unscoped one, whose flag class is accepted by the subcommand and is not the
`inherit` class), and `P` inherits one or more values for `F` from a profile
`Q`, then after resolving `P` — provided the command line sets neither `F`
nor any `inherit` flag — the flag `F` is absent from the resolved flag set
and contributes nothing to the final argument vector, regardless of how many
values `Q` supplied: removals are applied after all additions of the same
profile, and deletion removes the key outright. -/
theorem c3_removal_law (fs : FS) (cmd : String) (fuel : Nat)
    (qn F : String) (clsF : FlagClass) (o : Options) (p' : Profile)
    (hfind : findFlagClass F = some clsF)
    (hni : clsF.isInherit = false)
    (hacc : (commandAccepts cmd).contains clsF = true)
    (hitem :
      (∃ files, lookupProfileDir fs.etc o.profile = some files ∧
        (⟨["no", F], []⟩ : FileItem) ∈ files) ∨
      (∃ files, lookupProfileDir fs.user o.profile = some files ∧
        (⟨["no", F], []⟩ : FileItem) ∈ files))
    (hinh :
      (∃ files, lookupProfileDir fs.etc o.profile = some files ∧
        ∃ it ∈ files, it.parts = ["inherit", qn]) ∨
      (∃ files, lookupProfileDir fs.user o.profile = some files ∧
        ∃ it ∈ files, it.parts = ["inherit", qn]))
    (hq : (∃ files, lookupProfileDir fs.etc qn = some files ∧
        ∃ it ∈ files, it.parts.head? = some F) ∨
      (∃ files, lookupProfileDir fs.user qn = some files ∧
        ∃ it ∈ files, it.parts.head? = some F))
    (hopts : ∀ pr ∈ o.flagOpts, pr.1.name ≠ F ∧ pr.1.isInherit = false)
    (hok : profileInit fs cmd fuel o = Except.ok p') :
    dictGet p'.flags F = none ∧
    ∀ f ∈ sortedFlags cmd p', f.cls.name ≠ F := by
  have hok0 := hok
  have hwf : WFP p' := WFP_profileInit fs cmd fuel o p' hok0
  have hclsname : clsF.name = F := by
    unfold findFlagClass at hfind
    rcases hf2 : mainFlags.find? (fun c => c.name == F) with _ | cls0
    · rw [hf2] at hfind
      cases hfind
    · rw [hf2] at hfind
      cases hfind
      have := List.find?_some hf2
      simpa using this
  match fuel, hok with
  | 0, hok =>
    unfold profileInit inheritProfile at hok
    cases hok
  | fuel + 1, hok =>
    unfold profileInit at hok
    rcases h1 : inheritProfile fs cmd (fuel + 1) "default" ⟨[]⟩ with _ | p1
    · rw [h1] at hok
      cases hok
    · rw [h1] at hok
      dsimp only [] at hok
      rcases h2 : inheritProfile fs cmd (fuel + 1) o.profile p1 with _ | p2
      · rw [h2] at hok
        cases hok
      · rw [h2] at hok
        dsimp only [] at hok
        rcases inheritProfile_ok_inversion fs cmd fuel o.profile p1 p2 h2
          with ⟨scanned, q1, q2, hscan, ha1, ha2, hrem⟩
        have hfscan : (⟨clsF, none, [], true⟩ : FlagVal) ∈ scanned := by
          apply scan_mem fs cmd o.profile _ scanned hscan hacc
          rcases hitem with ⟨files, hdir, hmem⟩ | ⟨files, hdir, hmem⟩
          · exact Or.inl ⟨files, hdir, (⟨["no", F], []⟩ : FileItem), hmem,
              scanItem_removal cmd _ F [] clsF hfind⟩
          · exact Or.inr ⟨files, hdir, (⟨["no", F], []⟩ : FileItem), hmem,
              scanItem_removal cmd _ F [] clsF hfind⟩
        have hneg : (⟨clsF, none, [], true⟩ : FlagVal) ∈
            (((sortByKey commandKey scanned).filter
              (fun x => ¬ x.cls.isInherit)).filter (fun x => x.remove)) := by
          refine List.mem_filter.mpr ⟨List.mem_filter.mpr
            ⟨(mem_sortByKey _ _ _).mpr hfscan, ?_⟩, ?_⟩
          · simp [hni]
          · simp
        have habs2 : dictGet p2.flags F = none :=
          removeAll_removes F _ q2 p2 ⟨_, hneg, hclsname⟩ hrem
        have habs : dictGet p'.flags F = none :=
          useOptionsGo_preserves_absent F _ o hopts _ p2 p' habs2 hok
        refine ⟨habs, ?_⟩
        intro f hf hname
        rcases List.mem_flatMap.mp hf with ⟨cls, -, hf2⟩
        have hfmem : f ∈ p'.flags.map (·.2) := (List.mem_filter.mp hf2).1
        rcases List.mem_map.mp hfmem with ⟨pr, hpr, rfl⟩
        have hk := hwf pr hpr
        rw [dictGet_eq_none_iff] at habs
        exact habs pr hpr (by rw [← hk]; exact hname)

/-- **C3** witness: profile `p` holds `no_verbose` and `inherit` of `q`,
profile `q` supplies `verbose_5`; resolving `p` for `backup` yields a flag
set without `verbose` (here the empty flag set). -/
theorem c3_removal_law_witness :
    dictGet (⟨[]⟩ : Profile).flags "verbose" = none ∧
    ∀ f ∈ sortedFlags "backup" (⟨[]⟩ : Profile), f.cls.name ≠ "verbose" := by
  exact c3_removal_law
    ⟨none, some [
      ⟨"p", true, [⟨["no", "verbose"], []⟩, ⟨["inherit", "q"], []⟩]⟩,
      ⟨"q", true, [⟨["verbose", "5"], []⟩]⟩]⟩
    "backup" 3 "q" "verbose" verboseClass ⟨"p", []⟩ ⟨[]⟩
    (by decide) (by decide) (by decide)
    (Or.inr ⟨[⟨["no", "verbose"], []⟩, ⟨["inherit", "q"], []⟩], rfl,
      by decide⟩)
    (Or.inr ⟨[⟨["no", "verbose"], []⟩, ⟨["inherit", "q"], []⟩], rfl,
      (⟨["inherit", "q"], []⟩ : FileItem), by decide, rfl⟩)
    (Or.inr ⟨[⟨["verbose", "5"], []⟩], rfl,
      (⟨["verbose", "5"], []⟩ : FileItem), by decide, rfl⟩)
    (by intro pr hpr; cases hpr)
    rfl

/-! ## C9: search-path application order -/

/-- **C9** (search-path order).  When a profile `pn` exists under both
`/etc/restaround` and `~/.config/restaround`, `Profile.scan` lists the
`/etc` entries before the user-config entries, and applying them in that
order makes the user-config value win for a single-valued flag (`verbose`)
while the `/etc` values precede the user-config values for a multi-valued
flag (`host`), for every subcommand accepting those flags and all value
strings. -/
theorem c9_search_path_order (cmd pn v1 v2 a b : String) (fuel : Nat)
    (hv : (commandAccepts cmd).contains verboseClass = true)
    (ht : (commandAccepts cmd).contains hostClass = true) :
    scan ⟨some [⟨pn, true, [⟨["verbose", v1], []⟩, ⟨["host", a], []⟩]⟩],
          some [⟨pn, true, [⟨["verbose", v2], []⟩, ⟨["host", b], []⟩]⟩]⟩
        cmd pn =
      Except.ok [⟨verboseClass, none, [v1], false⟩,
        ⟨hostClass, none, [a], false⟩, ⟨verboseClass, none, [v2], false⟩,
        ⟨hostClass, none, [b], false⟩] ∧
    inheritProfile
        ⟨some [⟨pn, true, [⟨["verbose", v1], []⟩, ⟨["host", a], []⟩]⟩],
         some [⟨pn, true, [⟨["verbose", v2], []⟩, ⟨["host", b], []⟩]⟩]⟩
        cmd (fuel + 1) pn ⟨[]⟩ =
      Except.ok ⟨[("verbose", ⟨verboseClass, none, [v2], false⟩),
                  ("host", ⟨hostClass, none, [a, b], false⟩)]⟩ := by
  have hparse1 := fun (path : String) (v : String) =>
    scanItem_plain_inline cmd path "verbose" [v] verboseClass (by decide)
      (by decide) (by decide) (by simp) (by decide) (by decide)
      (Or.inr (by simp))
  have hparse2 := fun (path : String) (v : String) =>
    scanItem_plain_inline cmd path "host" [v] hostClass (by decide)
      (by decide) (by decide) (by simp) (by decide) (by decide)
      (Or.inl (by decide))
  have hdir1 : scanDir cmd (commandAccepts cmd)
      ("/etc" ++ "/restaround/" ++ pn)
      [⟨["verbose", v1], []⟩, ⟨["host", a], []⟩] =
      Except.ok [⟨verboseClass, none, [v1], false⟩,
        ⟨hostClass, none, [a], false⟩] := by
    refine scanDir_cons_some _ _ _ _ _ _ _ (hparse1 _ v1) hv ?_
    refine scanDir_cons_some _ _ _ _ _ _ _ (hparse2 _ a) ht ?_
    exact scanDir_nil _ _ _
  have hdir2 : scanDir cmd (commandAccepts cmd)
      ("~/.config" ++ "/restaround/" ++ pn)
      [⟨["verbose", v2], []⟩, ⟨["host", b], []⟩] =
      Except.ok [⟨verboseClass, none, [v2], false⟩,
        ⟨hostClass, none, [b], false⟩] := by
    refine scanDir_cons_some _ _ _ _ _ _ _ (hparse1 _ v2) hv ?_
    refine scanDir_cons_some _ _ _ _ _ _ _ (hparse2 _ b) ht ?_
    exact scanDir_nil _ _ _
  have hscan : scan
      ⟨some [⟨pn, true, [⟨["verbose", v1], []⟩, ⟨["host", a], []⟩]⟩],
       some [⟨pn, true, [⟨["verbose", v2], []⟩, ⟨["host", b], []⟩]⟩]⟩
      cmd pn =
      Except.ok [⟨verboseClass, none, [v1], false⟩,
        ⟨hostClass, none, [a], false⟩, ⟨verboseClass, none, [v2], false⟩,
        ⟨hostClass, none, [b], false⟩] := by
    exact scan_eval _ cmd pn _ _
      (scanPath_of_dir _ _ _ _ _ _ _ (lookupProfileDir_single pn _) hdir1)
      (scanPath_of_dir _ _ _ _ _ _ _ (lookupProfileDir_single pn _) hdir2)
  refine ⟨hscan, ?_⟩
  unfold inheritProfile
  rw [hscan]
  dsimp only []
  simp [sortByKey, insertByKey, commandKey, strLe_empty_left, applyAll,
    applyOne, inheritSeq, dictApply, dictGet, dictSet, iaddFlag, removeAll,
    verboseClass, hostClass, plainFlag, listFlag]

/-- **C9** witness: the theorem applied at the `snapshots` command, profile
`prof`, and concrete values. -/
theorem c9_search_path_order_witness :
    scan ⟨some [⟨"prof", true,
          [⟨["verbose", "1"], []⟩, ⟨["host", "x"], []⟩]⟩],
        some [⟨"prof", true,
          [⟨["verbose", "2"], []⟩, ⟨["host", "y"], []⟩]⟩]⟩
        "snapshots" "prof" =
      Except.ok [⟨verboseClass, none, ["1"], false⟩,
        ⟨hostClass, none, ["x"], false⟩, ⟨verboseClass, none, ["2"], false⟩,
        ⟨hostClass, none, ["y"], false⟩] ∧
    inheritProfile
        ⟨some [⟨"prof", true,
          [⟨["verbose", "1"], []⟩, ⟨["host", "x"], []⟩]⟩],
         some [⟨"prof", true,
          [⟨["verbose", "2"], []⟩, ⟨["host", "y"], []⟩]⟩]⟩
        "snapshots" 4 "prof" ⟨[]⟩ =
      Except.ok ⟨[("verbose", ⟨verboseClass, none, ["2"], false⟩),
                  ("host", ⟨hostClass, none, ["x", "y"], false⟩)]⟩ :=
  c9_search_path_order "snapshots" "prof" "1" "2" "x" "y" 3
    (by decide) (by decide)

/-! ## Helper lemmas for the precedence theorem -/

theorem useOptionsGo_empty (recur : String → Profile → Except Err Profile)
    (o : Options) (ho : o.flagOpts = []) :
    ∀ (accepts : List FlagClass) (p : Profile),
    useOptionsGo recur o accepts p = Except.ok p := by
  intro accepts
  induction accepts with
  | nil =>
    intro p
    rfl
  | cons cls rest ih =>
    intro p
    unfold useOptionsGo
    have : optValues o cls = none := by
      unfold optValues
      rw [ho]
      rfl
    rw [this]
    exact ih p

theorem useOptionsGo_zero (recur : String → Profile → Except Err Profile)
    (o : Options) (cls : FlagClass) (vals : List String)
    (ho : o.flagOpts = [(cls, vals)]) :
    ∀ (accepts : List FlagClass) (p : Profile),
    accepts.count cls = 0 →
    useOptionsGo recur o accepts p = Except.ok p := by
  intro accepts
  induction accepts with
  | nil =>
    intro p _
    rfl
  | cons cls' rest ih =>
    intro p hcnt
    have hne : cls' ≠ cls := by
      intro h
      subst h
      rw [List.count_cons] at hcnt
      simp at hcnt
    have hbeq : (cls == cls') = false :=
      beq_eq_false_iff_ne.mpr (fun h => hne h.symm)
    have hcnt' : rest.count cls = 0 := by
      have hbeq2 : (cls' == cls) = false := beq_eq_false_iff_ne.mpr hne
      rw [List.count_cons] at hcnt
      simpa [hbeq2] using hcnt
    unfold useOptionsGo
    have : optValues o cls' = none := by
      unfold optValues
      rw [ho]
      simp [List.find?, hbeq]
    rw [this]
    exact ih p hcnt'

theorem useOptionsGo_single (recur : String → Profile → Except Err Profile)
    (o : Options) (cls : FlagClass) (vals : List String)
    (ho : o.flagOpts = [(cls, vals)]) (hni : cls.isInherit = false) :
    ∀ (accepts : List FlagClass) (p : Profile),
    accepts.count cls = 1 →
    useOptionsGo recur o accepts p =
      Except.ok (dictApply p ⟨cls, none, vals, false⟩) := by
  intro accepts
  induction accepts with
  | nil =>
    intro p hcnt
    simp [List.count_nil] at hcnt
  | cons cls' rest ih =>
    intro p hcnt
    unfold useOptionsGo
    by_cases he : cls' = cls
    · subst he
      have hv : optValues o cls' = some vals := by
        unfold optValues
        rw [ho]
        simp [List.find?]
      rw [hv]
      dsimp only []
      have happ : applyOne recur ⟨cls', none, vals, false⟩ p =
          Except.ok (dictApply p ⟨cls', none, vals, false⟩) := by
        unfold applyOne
        rw [hni]
        simp
      rw [happ]
      have hcnt' : rest.count cls' = 0 := by
        rw [List.count_cons] at hcnt
        simpa using hcnt
      exact useOptionsGo_zero recur o cls' vals ho rest _ hcnt'
    · have hbeq : (cls == cls') = false :=
        beq_eq_false_iff_ne.mpr (fun h => he h.symm)
      have hv : optValues o cls' = none := by
        unfold optValues
        rw [ho]
        simp [List.find?, hbeq]
      rw [hv]
      have hcnt' : rest.count cls = 1 := by
        have hbeq2 : (cls' == cls) = false := beq_eq_false_iff_ne.mpr he
        rw [List.count_cons] at hcnt
        simpa [hbeq2] using hcnt
      exact ih p hcnt'

theorem lookupProfileDir_cons_skip (e : RootEntry) (rest : List RootEntry)
    (pn : String) (h : e.name ≠ pn) :
    lookupProfileDir (some (e :: rest)) pn =
      lookupProfileDir (some rest) pn := by
  have hbeq : (e.name == pn) = false := beq_eq_false_iff_ne.mpr h
  unfold lookupProfileDir
  simp [List.find?, hbeq]

theorem lookupProfileDir_nil (pn : String) :
    lookupProfileDir (some []) pn = none := rfl

theorem lookupProfileDir_cons_found (pn : String) (files : List FileItem)
    (rest : List RootEntry) :
    lookupProfileDir (some (⟨pn, true, files⟩ :: rest)) pn = some files := by
  simp [lookupProfileDir, List.find?]

theorem inheritProfile_empty_scan (fs : FS) (cmd : String) (fuel : Nat)
    (pn : String) (p : Profile) (hscan : scan fs cmd pn = Except.ok []) :
    inheritProfile fs cmd (fuel + 1) pn p = Except.ok p := by
  unfold inheritProfile
  rw [hscan]
  dsimp only []
  simp [sortByKey, applyAll, removeAll]

theorem profileInit_eval (fs : FS) (cmd : String) (fuel : Nat) (o : Options)
    (p1 p2 p3 : Profile)
    (h1 : inheritProfile fs cmd fuel "default" ⟨[]⟩ = Except.ok p1)
    (h2 : inheritProfile fs cmd fuel o.profile p1 = Except.ok p2)
    (h3 : useOptions fs cmd fuel o p2 = Except.ok p3) :
    profileInit fs cmd fuel o = Except.ok p3 := by
  unfold profileInit
  rw [h1]
  dsimp only []
  rw [h2]
  dsimp only []
  exact h3

/-! ## C1: profile resolution precedence -/

/-- **C1** (profile resolution precedence).  For every subcommand (accepting
the flags involved), profile names and value strings:
(a) the `default` profile is applied first and the named profile second, so
the named profile's value wins for the single-valued `verbose` while
`default`'s values precede the named profile's for the multi-valued `host`;
(b) command-line overrides are applied last and win over both profiles;
(c) within one profile, a command-scoped entry is processed after an
unscoped entry for the same flag and therefore wins, in either scan order;
(d) within one profile, `inherit` entries are processed before all others,
so the profile's own entry overrides the inherited value, in either scan
order;
(e) within one profile, removal entries are applied after all additions, so
`no_verbose` erases `verbose` even when the addition is scanned later. -/
theorem c1_resolution_precedence (cmd pn qn v1 v2 v3 vq a1 a2 : String)
    (fuel : Nat)
    (hv : (commandAccepts cmd).contains verboseClass = true)
    (hh : (commandAccepts cmd).contains hostClass = true)
    (hone : (commandAccepts cmd).count verboseClass = 1)
    (hi : (commandAccepts cmd).contains inheritFlag = true)
    (hcmd : commandNames.contains cmd = true)
    (hpn : pn ≠ "default") (hpq : pn ≠ qn) :
    profileInit
        ⟨some [⟨"default", true,
            [⟨["verbose", v1], []⟩, ⟨["host", a1], []⟩]⟩],
         some [⟨pn, true, [⟨["verbose", v2], []⟩, ⟨["host", a2], []⟩]⟩]⟩
        cmd (fuel + 1) ⟨pn, []⟩ =
      Except.ok ⟨[("verbose", ⟨verboseClass, none, [v2], false⟩),
                  ("host", ⟨hostClass, none, [a1, a2], false⟩)]⟩ ∧
    profileInit
        ⟨some [⟨"default", true,
            [⟨["verbose", v1], []⟩, ⟨["host", a1], []⟩]⟩],
         some [⟨pn, true, [⟨["verbose", v2], []⟩, ⟨["host", a2], []⟩]⟩]⟩
        cmd (fuel + 1) ⟨pn, [(verboseClass, [v3])]⟩ =
      Except.ok ⟨[("verbose", ⟨verboseClass, none, [v3], false⟩),
                  ("host", ⟨hostClass, none, [a1, a2], false⟩)]⟩ ∧
    (∀ files : List FileItem,
      files = [⟨["verbose", v1], []⟩, ⟨[cmd, "verbose", v3], []⟩] ∨
        files = [⟨[cmd, "verbose", v3], []⟩, ⟨["verbose", v1], []⟩] →
      inheritProfile ⟨none, some [⟨pn, true, files⟩]⟩ cmd (fuel + 1) pn
          ⟨[]⟩ =
        Except.ok ⟨[("verbose", ⟨verboseClass, some cmd, [v3], false⟩)]⟩) ∧
    (∀ files : List FileItem,
      files = [⟨["verbose", v1], []⟩, ⟨["inherit", qn], []⟩] ∨
        files = [⟨["inherit", qn], []⟩, ⟨["verbose", v1], []⟩] →
      inheritProfile
          ⟨none, some [⟨pn, true, files⟩,
            ⟨qn, true, [⟨["verbose", vq], []⟩]⟩]⟩
          cmd (fuel + 2) pn ⟨[]⟩ =
        Except.ok ⟨[("verbose", ⟨verboseClass, none, [v1], false⟩)]⟩) ∧
    (∀ files : List FileItem,
      files = [⟨["no", "verbose"], []⟩, ⟨["verbose", v1], []⟩] ∨
        files = [⟨["verbose", v1], []⟩, ⟨["no", "verbose"], []⟩] →
      inheritProfile ⟨none, some [⟨pn, true, files⟩]⟩ cmd (fuel + 1) pn
          ⟨[]⟩ = Except.ok ⟨[]⟩) := by
  have hcmdne : cmd ≠ "" := by
    intro h
    subst h
    revert hcmd
    decide
  have hverbItem : ∀ (path v : String),
      scanItem cmd path ⟨["verbose", v], []⟩ =
        Except.ok (some ⟨verboseClass, none, [v], false⟩) :=
    fun path v => scanItem_plain_inline cmd path "verbose" [v] verboseClass
      (by decide) (by decide) (by decide) (by simp) (by decide) (by decide)
      (Or.inr (by simp))
  have hhostItem : ∀ (path v : String),
      scanItem cmd path ⟨["host", v], []⟩ =
        Except.ok (some ⟨hostClass, none, [v], false⟩) :=
    fun path v => scanItem_plain_inline cmd path "host" [v] hostClass
      (by decide) (by decide) (by decide) (by simp) (by decide) (by decide)
      (Or.inl (by decide))
  have hinhItem : ∀ path : String,
      scanItem cmd path ⟨["inherit", qn], []⟩ =
        Except.ok (some ⟨inheritFlag, none, [qn], false⟩) :=
    fun path => scanItem_plain_inline cmd path "inherit" [qn] inheritFlag
      (by decide) (by decide) (by decide) (by simp) (by decide) (by decide)
      (Or.inl (by decide))
  have hremItem : ∀ path : String,
      scanItem cmd path ⟨["no", "verbose"], []⟩ =
        Except.ok (some ⟨verboseClass, none, [], true⟩) :=
    fun path => scanItem_removal cmd path "verbose" [] verboseClass
      (by decide)
  have hscopedItem : ∀ (path v : String),
      scanItem cmd path ⟨[cmd, "verbose", v], []⟩ =
        Except.ok (some ⟨verboseClass, some cmd, [v], false⟩) :=
    fun path v => scanItem_scoped_inline path cmd "verbose" [v] verboseClass
      hcmd (by decide) (by decide) (by simp) (by decide) (by decide)
      (Or.inr (by simp))
  -- (a)/(b): the shared resolution of `default` and `pn`.
  have hscanDef : scan
      ⟨some [⟨"default", true,
          [⟨["verbose", v1], []⟩, ⟨["host", a1], []⟩]⟩],
       some [⟨pn, true, [⟨["verbose", v2], []⟩, ⟨["host", a2], []⟩]⟩]⟩
      cmd "default" =
      Except.ok [⟨verboseClass, none, [v1], false⟩,
        ⟨hostClass, none, [a1], false⟩] := by
    have huser : lookupProfileDir
        (some [⟨pn, true, [⟨["verbose", v2], []⟩, ⟨["host", a2], []⟩]⟩])
        "default" = none := by
      rw [lookupProfileDir_cons_skip _ _ _ hpn]
      exact lookupProfileDir_nil _
    have h := scan_eval
      ⟨some [⟨"default", true,
          [⟨["verbose", v1], []⟩, ⟨["host", a1], []⟩]⟩],
       some [⟨pn, true, [⟨["verbose", v2], []⟩, ⟨["host", a2], []⟩]⟩]⟩
      cmd "default" _ []
      (scanPath_of_dir _ _ _ _ _ _ _ (lookupProfileDir_single "default" _)
        (scanDir_cons_some _ _ _ _ _ _ _ (hverbItem _ v1) hv
          (scanDir_cons_some _ _ _ _ _ _ _ (hhostItem _ a1) hh
            (scanDir_nil _ _ _))))
      (scanPath_of_missing _ _ _ _ _ huser)
    simpa using h
  have hscanPn : scan
      ⟨some [⟨"default", true,
          [⟨["verbose", v1], []⟩, ⟨["host", a1], []⟩]⟩],
       some [⟨pn, true, [⟨["verbose", v2], []⟩, ⟨["host", a2], []⟩]⟩]⟩
      cmd pn =
      Except.ok [⟨verboseClass, none, [v2], false⟩,
        ⟨hostClass, none, [a2], false⟩] := by
    have hetc : lookupProfileDir
        (some [⟨"default", true,
          [⟨["verbose", v1], []⟩, ⟨["host", a1], []⟩]⟩]) pn = none := by
      rw [lookupProfileDir_cons_skip _ _ _ (fun h => hpn h.symm)]
      exact lookupProfileDir_nil _
    have h := scan_eval
      ⟨some [⟨"default", true,
          [⟨["verbose", v1], []⟩, ⟨["host", a1], []⟩]⟩],
       some [⟨pn, true, [⟨["verbose", v2], []⟩, ⟨["host", a2], []⟩]⟩]⟩
      cmd pn [] _
      (scanPath_of_missing _ _ _ _ _ hetc)
      (scanPath_of_dir _ _ _ _ _ _ _ (lookupProfileDir_single pn _)
        (scanDir_cons_some _ _ _ _ _ _ _ (hverbItem _ v2) hv
          (scanDir_cons_some _ _ _ _ _ _ _ (hhostItem _ a2) hh
            (scanDir_nil _ _ _))))
    simpa using h
  have hinhDef : inheritProfile
      ⟨some [⟨"default", true,
          [⟨["verbose", v1], []⟩, ⟨["host", a1], []⟩]⟩],
       some [⟨pn, true, [⟨["verbose", v2], []⟩, ⟨["host", a2], []⟩]⟩]⟩
      cmd (fuel + 1) "default" ⟨[]⟩ =
      Except.ok ⟨[("verbose", ⟨verboseClass, none, [v1], false⟩),
                  ("host", ⟨hostClass, none, [a1], false⟩)]⟩ := by
    unfold inheritProfile
    rw [hscanDef]
    dsimp only []
    simp [sortByKey, insertByKey, commandKey, strLe_empty_left, applyAll,
      applyOne, inheritSeq, dictApply, dictGet, dictSet, iaddFlag,
      removeAll, verboseClass, hostClass, plainFlag, listFlag]
  have hinhPn : inheritProfile
      ⟨some [⟨"default", true,
          [⟨["verbose", v1], []⟩, ⟨["host", a1], []⟩]⟩],
       some [⟨pn, true, [⟨["verbose", v2], []⟩, ⟨["host", a2], []⟩]⟩]⟩
      cmd (fuel + 1) pn
      ⟨[("verbose", ⟨verboseClass, none, [v1], false⟩),
        ("host", ⟨hostClass, none, [a1], false⟩)]⟩ =
      Except.ok ⟨[("verbose", ⟨verboseClass, none, [v2], false⟩),
                  ("host", ⟨hostClass, none, [a1, a2], false⟩)]⟩ := by
    unfold inheritProfile
    rw [hscanPn]
    dsimp only []
    simp [sortByKey, insertByKey, commandKey, strLe_empty_left, applyAll,
      applyOne, inheritSeq, dictApply, dictGet, dictSet, iaddFlag,
      removeAll, verboseClass, hostClass, plainFlag, listFlag]
  refine ⟨?_, ?_, ?_, ?_, ?_⟩
  · refine profileInit_eval _ cmd (fuel + 1) ⟨pn, []⟩ _ _ _ hinhDef hinhPn ?_
    unfold useOptions
    exact useOptionsGo_empty _ ⟨pn, []⟩ rfl _ _
  · refine profileInit_eval _ cmd (fuel + 1) ⟨pn, [(verboseClass, [v3])]⟩
      _ _ _ hinhDef hinhPn ?_
    unfold useOptions
    rw [useOptionsGo_single _ ⟨pn, [(verboseClass, [v3])]⟩
      verboseClass [v3] rfl (by decide) (commandAccepts cmd) _ hone]
    simp [dictApply, dictGet, dictSet, verboseClass, hostClass, plainFlag,
      listFlag]
  · intro files hfiles
    have hscanC : scan ⟨none, some [⟨pn, true, files⟩]⟩ cmd pn =
        Except.ok [⟨verboseClass, none, [v1], false⟩,
          ⟨verboseClass, some cmd, [v3], false⟩] ∨
        scan ⟨none, some [⟨pn, true, files⟩]⟩ cmd pn =
        Except.ok [⟨verboseClass, some cmd, [v3], false⟩,
          ⟨verboseClass, none, [v1], false⟩] := by
      rcases hfiles with rfl | rfl
      · left
        have h := scan_eval
          ⟨none, some [⟨pn, true,
            [⟨["verbose", v1], []⟩, ⟨[cmd, "verbose", v3], []⟩]⟩]⟩
          cmd pn [] _
          (scanPath_of_missing _ _ _ _ _ (lookupProfileDir_none_root pn))
          (scanPath_of_dir _ _ _ _ _ _ _ (lookupProfileDir_single pn _)
            (scanDir_cons_some _ _ _ _ _ _ _ (hverbItem _ v1) hv
              (scanDir_cons_some _ _ _ _ _ _ _ (hscopedItem _ v3) hv
                (scanDir_nil _ _ _))))
        simpa using h
      · right
        have h := scan_eval
          ⟨none, some [⟨pn, true,
            [⟨[cmd, "verbose", v3], []⟩, ⟨["verbose", v1], []⟩]⟩]⟩
          cmd pn [] _
          (scanPath_of_missing _ _ _ _ _ (lookupProfileDir_none_root pn))
          (scanPath_of_dir _ _ _ _ _ _ _ (lookupProfileDir_single pn _)
            (scanDir_cons_some _ _ _ _ _ _ _ (hscopedItem _ v3) hv
              (scanDir_cons_some _ _ _ _ _ _ _ (hverbItem _ v1) hv
                (scanDir_nil _ _ _))))
        simpa using h
    rcases hscanC with hs | hs
    all_goals
      unfold inheritProfile
      rw [hs]
      dsimp only []
      simp [sortByKey, insertByKey, commandKey, strLe_empty_left,
        strLe_empty_right cmd hcmdne, applyAll, applyOne, inheritSeq,
        dictApply, dictGet, dictSet, iaddFlag, removeAll, verboseClass,
        plainFlag]
  · intro files hfiles
    have hscanQ : scan
        ⟨none, some [⟨pn, true, files⟩,
          ⟨qn, true, [⟨["verbose", vq], []⟩]⟩]⟩ cmd qn =
        Except.ok [⟨verboseClass, none, [vq], false⟩] := by
      have huser : lookupProfileDir
          (some [⟨pn, true, files⟩, ⟨qn, true, [⟨["verbose", vq], []⟩]⟩])
          qn = some [⟨["verbose", vq], []⟩] := by
        rw [lookupProfileDir_cons_skip _ _ _ hpq]
        exact lookupProfileDir_single qn _
      have h := scan_eval
        ⟨none, some [⟨pn, true, files⟩,
          ⟨qn, true, [⟨["verbose", vq], []⟩]⟩]⟩
        cmd qn [] _
        (scanPath_of_missing _ _ _ _ _ (lookupProfileDir_none_root qn))
        (scanPath_of_dir _ _ _ _ _ _ _ huser
          (scanDir_cons_some _ _ _ _ _ _ _ (hverbItem _ vq) hv
            (scanDir_nil _ _ _)))
      simpa using h
    have hinhQ : inheritProfile
        ⟨none, some [⟨pn, true, files⟩,
          ⟨qn, true, [⟨["verbose", vq], []⟩]⟩]⟩ cmd (fuel + 1) qn ⟨[]⟩ =
        Except.ok ⟨[("verbose", ⟨verboseClass, none, [vq], false⟩)]⟩ := by
      unfold inheritProfile
      rw [hscanQ]
      dsimp only []
      simp [sortByKey, insertByKey, commandKey, strLe_empty_left, applyAll,
        applyOne, inheritSeq, dictApply, dictGet, dictSet, iaddFlag,
        removeAll, verboseClass, plainFlag]
    rcases hfiles with rfl | rfl
    · have hs := scan_eval
        ⟨none, some [⟨pn, true,
            [⟨["verbose", v1], []⟩, ⟨["inherit", qn], []⟩]⟩,
          ⟨qn, true, [⟨["verbose", vq], []⟩]⟩]⟩ cmd pn [] _
        (scanPath_of_missing _ _ _ _ _ (lookupProfileDir_none_root pn))
        (scanPath_of_dir _ _ _ _ _ _ _ (lookupProfileDir_cons_found pn _ _)
          (scanDir_cons_some _ _ _ _ _ _ _ (hverbItem _ v1) hv
            (scanDir_cons_some _ _ _ _ _ _ _ (hinhItem _) hi
              (scanDir_nil _ _ _))))
      rw [show ((fuel + 2 : Nat)) = (fuel + 1) + 1 from rfl]
      simp only [List.nil_append] at hs
      unfold inheritProfile
      rw [hs]
      dsimp only []
      simp only [sortByKey, insertByKey, commandKey, Option.getD,
        strLe_empty_left, if_true]
      simp only [List.filter, verboseClass, plainFlag, inheritFlag]
      simp only [applyAll, applyOne, inheritSeq]
      rw [hinhQ]
      simp [dictApply, dictGet, dictSet, iaddFlag, removeAll, applyAll,
        applyOne, inheritSeq, verboseClass, plainFlag]
    · have hs := scan_eval
        ⟨none, some [⟨pn, true,
            [⟨["inherit", qn], []⟩, ⟨["verbose", v1], []⟩]⟩,
          ⟨qn, true, [⟨["verbose", vq], []⟩]⟩]⟩ cmd pn [] _
        (scanPath_of_missing _ _ _ _ _ (lookupProfileDir_none_root pn))
        (scanPath_of_dir _ _ _ _ _ _ _ (lookupProfileDir_cons_found pn _ _)
          (scanDir_cons_some _ _ _ _ _ _ _ (hinhItem _) hi
            (scanDir_cons_some _ _ _ _ _ _ _ (hverbItem _ v1) hv
              (scanDir_nil _ _ _))))
      rw [show ((fuel + 2 : Nat)) = (fuel + 1) + 1 from rfl]
      simp only [List.nil_append] at hs
      unfold inheritProfile
      rw [hs]
      dsimp only []
      simp only [sortByKey, insertByKey, commandKey, Option.getD,
        strLe_empty_left, if_true]
      simp only [List.filter, verboseClass, plainFlag, inheritFlag]
      simp only [applyAll, applyOne, inheritSeq]
      rw [hinhQ]
      simp [dictApply, dictGet, dictSet, iaddFlag, removeAll, applyAll,
        applyOne, inheritSeq, verboseClass, plainFlag]
  · intro files hfiles
    have hscanR : scan ⟨none, some [⟨pn, true, files⟩]⟩ cmd pn =
        Except.ok [⟨verboseClass, none, [], true⟩,
          ⟨verboseClass, none, [v1], false⟩] ∨
        scan ⟨none, some [⟨pn, true, files⟩]⟩ cmd pn =
        Except.ok [⟨verboseClass, none, [v1], false⟩,
          ⟨verboseClass, none, [], true⟩] := by
      rcases hfiles with rfl | rfl
      · left
        have h := scan_eval
          ⟨none, some [⟨pn, true,
            [⟨["no", "verbose"], []⟩, ⟨["verbose", v1], []⟩]⟩]⟩
          cmd pn [] _
          (scanPath_of_missing _ _ _ _ _ (lookupProfileDir_none_root pn))
          (scanPath_of_dir _ _ _ _ _ _ _ (lookupProfileDir_single pn _)
            (scanDir_cons_some _ _ _ _ _ _ _ (hremItem _) hv
              (scanDir_cons_some _ _ _ _ _ _ _ (hverbItem _ v1) hv
                (scanDir_nil _ _ _))))
        simpa using h
      · right
        have h := scan_eval
          ⟨none, some [⟨pn, true,
            [⟨["verbose", v1], []⟩, ⟨["no", "verbose"], []⟩]⟩]⟩
          cmd pn [] _
          (scanPath_of_missing _ _ _ _ _ (lookupProfileDir_none_root pn))
          (scanPath_of_dir _ _ _ _ _ _ _ (lookupProfileDir_single pn _)
            (scanDir_cons_some _ _ _ _ _ _ _ (hverbItem _ v1) hv
              (scanDir_cons_some _ _ _ _ _ _ _ (hremItem _) hv
                (scanDir_nil _ _ _))))
        simpa using h
    rcases hscanR with hs | hs
    all_goals
      unfold inheritProfile
      rw [hs]
      dsimp only []
      simp [sortByKey, insertByKey, commandKey, strLe_empty_left, applyAll,
        applyOne, inheritSeq, dictApply, dictGet, dictSet, iaddFlag,
        removeAll, removeFrom, dictErase, verboseClass, plainFlag]

/-- Witness for C1: the precedence rules at concrete inputs (command
`backup`, profiles `p` and `q`, one scan order chosen in each clause). -/
theorem c1_resolution_precedence_witness :
    profileInit
        ⟨some [⟨"default", true,
            [⟨["verbose", "1"], []⟩, ⟨["host", "h1"], []⟩]⟩],
         some [⟨"p", true,
            [⟨["verbose", "2"], []⟩, ⟨["host", "h2"], []⟩]⟩]⟩
        "backup" 1 ⟨"p", []⟩ =
      Except.ok ⟨[("verbose", ⟨verboseClass, none, ["2"], false⟩),
                  ("host", ⟨hostClass, none, ["h1", "h2"], false⟩)]⟩ ∧
    profileInit
        ⟨some [⟨"default", true,
            [⟨["verbose", "1"], []⟩, ⟨["host", "h1"], []⟩]⟩],
         some [⟨"p", true,
            [⟨["verbose", "2"], []⟩, ⟨["host", "h2"], []⟩]⟩]⟩
        "backup" 1 ⟨"p", [(verboseClass, ["3"])]⟩ =
      Except.ok ⟨[("verbose", ⟨verboseClass, none, ["3"], false⟩),
                  ("host", ⟨hostClass, none, ["h1", "h2"], false⟩)]⟩ ∧
    inheritProfile
        ⟨none, some [⟨"p", true,
          [⟨["verbose", "1"], []⟩, ⟨["backup", "verbose", "3"], []⟩]⟩]⟩
        "backup" 1 "p" ⟨[]⟩ =
      Except.ok
        ⟨[("verbose", ⟨verboseClass, some "backup", ["3"], false⟩)]⟩ ∧
    inheritProfile
        ⟨none, some [⟨"p", true,
            [⟨["verbose", "1"], []⟩, ⟨["inherit", "q"], []⟩]⟩,
          ⟨"q", true, [⟨["verbose", "9"], []⟩]⟩]⟩
        "backup" 2 "p" ⟨[]⟩ =
      Except.ok ⟨[("verbose", ⟨verboseClass, none, ["1"], false⟩)]⟩ ∧
    inheritProfile
        ⟨none, some [⟨"p", true,
          [⟨["no", "verbose"], []⟩, ⟨["verbose", "1"], []⟩]⟩]⟩
        "backup" 1 "p" ⟨[]⟩ = Except.ok ⟨[]⟩ := by
  have h := c1_resolution_precedence "backup" "p" "q" "1" "2" "3" "9"
    "h1" "h2" 0 (by decide) (by decide) (by decide) (by decide) (by decide)
    (by decide) (by decide)
  exact ⟨h.1, h.2.1, h.2.2.1 _ (Or.inl rfl), h.2.2.2.1 _ (Or.inl rfl),
    h.2.2.2.2 _ (Or.inl rfl)⟩

end Restaround
